import Mathlib

/-!
# QuantLib observer pattern (`ql/patterns/observable.cpp`)

A shallow embedding of the two configurations of `observable.cpp`:

* the single-threaded one (`#ifndef QL_ENABLE_THREAD_SAFE_OBSERVER_PATTERN`):
  `ObservableSettings::enableUpdates` and `Observable::notifyObservers`;
* the thread-safe one (`#else`): `Observable::registerObserver`,
  `Observable::unregisterObserver`, `Observable::notifyObservers` and the
  copy constructor.

What `ql/patterns/observable.hpp` and `ql/errors.hpp` define is not among the
sources; the definitions that stand for it say so.

Objects are identified by their address, a natural number, `0` being the null
pointer.  An observer's `update()` is arbitrary code: it is a parameter of the
model, a function that maps the state of the program to a new state and
either returns or throws.  Every operation reports the `update()` calls that
its own dispatch loop made, in order, each with its outcome.
-/

namespace QuantLib

/-- Address of an `Observer` (single-threaded configuration) or of an
`Observer::Proxy` (thread-safe configuration); `0` is the null pointer. -/
abbrev Observer := Nat

/-- What a call may throw. -/
inductive Thrown where
  /-- The `QuantLib::Error` (a `std::exception`) that `QL_ENSURE` raises. -/
  | Error (message : String)
  /-- Another exception derived from `std::exception`. -/
  | stdException (what : String)
  /-- An exception that only `catch (...)` catches. -/
  | unknown
  deriving DecidableEq, Repr

/-- The text `e.what()` seen by `catch (std::exception& e)`; `none` for an
exception that only `catch (...)` catches. -/
def Thrown.what : Thrown → Option String
  | .Error message => some message
  | .stdException what => some what
  | .unknown => none

/-- How a call ends. -/
inductive Completion where
  | returned
  | threw (e : Thrown)
  deriving DecidableEq, Repr

/-- Modelled from the spec: `set_type` is declared in
`ql/patterns/observable.hpp`, which is not among the sources.  The spec makes
it "an unordered collection of Observer references, unique by identity": a
list without duplicates, whose order is the iteration order. -/
abbrev set_type := List Observer

/-- Modelled from the spec: `set_type::insert` ("registering the same
observer twice is a no-op; the collection is a set, not a multiset"). -/
def set_type.insert (s : set_type) (o : Observer) : set_type :=
  if o ∈ s then s else s ++ [o]

/-- Modelled from the spec: `set_type::insert(first, last)`, the insertion of
a range, element by element. -/
def set_type.insertRange (s : set_type) (range : List Observer) : set_type :=
  range.foldl set_type.insert s

/-- Modelled from the spec: `set_type::erase(key)` ("removes observer if
present; no-op if absent"). -/
def set_type.erase (s : set_type) (o : Observer) : set_type :=
  s.filter (fun x => x ≠ o)

/-- Iterator increment `++i` on a container that is being iterated: the
iterator at element `o` moves to the element that follows `o` in the
container as it is now, `none` being `end()`.  (Incrementing an iterator whose
element was erased is undefined in C++; here it yields `end()`.) -/
def set_type.next : set_type → Observer → Option Observer
  | [], _ => none
  | x :: xs, o => if x = o then xs.head? else set_type.next xs o

/-- The members of `ObservableSettings`. -/
structure ObservableSettings where
  updatesEnabled_ : Bool
  updatesDeferred_ : Bool
  deferredObservers_ : set_type
  deriving DecidableEq, Repr

/-- The members of an `Observable`. -/
structure Observable where
  observers_ : set_type
  deriving DecidableEq, Repr

/-- The state of the program that the observer pattern reads and writes: the
`ObservableSettings` singleton and the `Observable` objects, by address. -/
structure World where
  settings_ : ObservableSettings
  observables : Nat → Observable

/-- The code of `Observer::update()` of every observer: run on a state, it
either returns (`none`) or throws, and leaves a state. -/
abbrev Update := Observer → World → Option Thrown × World

/-- One `update()` call made by a dispatch loop: the observer and what its
`update()` threw, if anything. -/
abbrev Call := Observer × Option Thrown

/-- The run of an operation: how it ended, the state it left, and the
`update()` calls it made, in order. -/
structure Run where
  outcome : Completion
  world : World
  calls : List Call

/-- The initial state of the settings singleton (spec: "`enabled: bool`
(default true), `deferred: bool` (default false)", pending set empty). -/
def ObservableSettings.initial : ObservableSettings :=
  { updatesEnabled_ := true, updatesDeferred_ := false, deferredObservers_ := [] }

/-- Modelled from the spec: `ObservableSettings::disableUpdates` is defined in
`ql/patterns/observable.hpp`, which is not among the sources.  Spec: "sets
`enabled=false`; if `deferred` is true also sets `deferred=true`". -/
def ObservableSettings.disableUpdates (s : ObservableSettings) (deferred : Bool) :
    ObservableSettings :=
  if deferred then { s with updatesEnabled_ := false, updatesDeferred_ := true }
  else { s with updatesEnabled_ := false }

/-- Modelled from the spec: `ObservableSettings::registerDeferredObservers` is
defined in `ql/patterns/observable.hpp`, which is not among the sources.  It
receives the observer set of the notifying Observable and adds it to the
pending set with set semantics ("idempotent, set semantics"), and only while
deferral was requested ("must not record a pending replay either - deferral
must be explicitly requested"). -/
def ObservableSettings.registerDeferredObservers (s : ObservableSettings)
    (observers : set_type) : ObservableSettings :=
  if s.updatesDeferred_ then
    { s with deferredObservers_ := s.deferredObservers_.insertRange observers }
  else s

/-- Modelled from the spec: `ObservableSettings::unregisterDeferredObserver`
is defined in `ql/patterns/observable.hpp`, which is not among the sources.
It receives the detached observer and removes it from the pending set
("purge this observer from any deferred-replay bookkeeping"). -/
def ObservableSettings.unregisterDeferredObserver (s : ObservableSettings)
    (o : Observer) : ObservableSettings :=
  { s with deferredObservers_ := s.deferredObservers_.erase o }

/-- The macro `QL_ENSURE(condition, message)` of `ql/errors.hpp` (not among
the sources): it throws a `QuantLib::Error` carrying `message` unless
`condition` holds. -/
def QL_ENSURE (condition : Bool) (message : String) : Completion :=
  if condition then .returned else .threw (.Error message)

/-- World with the settings singleton replaced. -/
def World.withSettings (w : World) (s : ObservableSettings) : World :=
  { w with settings_ := s }

/-- World with the observer set of the Observable at `self` replaced. -/
def World.withObservers (w : World) (self : Nat) (observers : set_type) : World :=
  { w with observables := Function.update w.observables self { observers_ := observers } }

namespace SingleThreaded

/-- The locals `successful` and `errMsg` of the two dispatch loops. -/
structure Locals where
  successful : Bool
  errMsg : String
  deriving DecidableEq, Repr

/-- The handlers of the `try` block around `update()`:
`catch (std::exception& e) { successful = false; errMsg = e.what(); }` and
`catch (...) { successful = false; }`. -/
def catchUpdate (thrown : Option Thrown) (v : Locals) : Locals :=
  match thrown with
  | none => v
  | some e =>
    match e.what with
    | some text => { successful := false, errMsg := text }
    | none => { v with successful := false }

/-- The loop `for (iterator i = c.begin(); i != c.end(); ++i) { try {
(*i)->update(); } catch ... }` of both `enableUpdates` (with `c` the pending
set) and `notifyObservers` (with `c` the observer set).  The container is read
in the current state at every step, as the iterator does; `i` is the iterator
(`none` is `c.end()`).  `fuel` bounds the number of iterations. -/
def dispatchLoop (update : Update) (container : World → set_type) :
    Nat → Option Observer → Locals → World → List Call → Option (Locals × World × List Call)
  | _, none, v, w, calls => some (v, w, calls)
  | 0, some _, _, _, _ => none
  | fuel + 1, some o, v, w, calls =>
    let r := update o w
    dispatchLoop update container fuel ((container r.2).next o)
      (catchUpdate r.1 v) r.2 (calls ++ [(o, r.1)])

/-- `ObservableSettings::enableUpdates()`, single-threaded configuration.
`none` when `fuel` iterations did not finish the loop. -/
def enableUpdates (update : Update) (fuel : Nat) (w : World) : Option Run :=
  let w := w.withSettings
    { w.settings_ with updatesEnabled_ := true, updatesDeferred_ := false }
  if w.settings_.deferredObservers_.length ≠ 0 then
    match dispatchLoop update (fun x => x.settings_.deferredObservers_) fuel
        w.settings_.deferredObservers_.head? ⟨true, ""⟩ w [] with
    | none => none
    | some (v, w, calls) =>
      let w := w.withSettings { w.settings_ with deferredObservers_ := [] }
      some { outcome := QL_ENSURE v.successful
                ("could not notify one or more observers: " ++ v.errMsg),
             world := w, calls := calls }
  else some { outcome := .returned, world := w, calls := [] }

/-- `Observable::notifyObservers()`, single-threaded configuration, on the
Observable at address `self`.  `none` when `fuel` iterations did not finish
the loop. -/
def notifyObservers (update : Update) (fuel : Nat) (self : Nat) (w : World) : Option Run :=
  if !w.settings_.updatesEnabled_ then
    some { outcome := .returned,
           world := w.withSettings
             (w.settings_.registerDeferredObservers (w.observables self).observers_),
           calls := [] }
  else if (w.observables self).observers_.length ≠ 0 then
    match dispatchLoop update (fun x => (x.observables self).observers_) fuel
        (w.observables self).observers_.head? ⟨true, ""⟩ w [] with
    | none => none
    | some (v, w, calls) =>
      some { outcome := QL_ENSURE v.successful
                ("could not notify one or more observers: " ++ v.errMsg),
             world := w, calls := calls }
  else some { outcome := .returned, world := w, calls := [] }

/-- Modelled from the spec: the single-threaded `Observable::registerObserver`
is defined in `ql/patterns/observable.hpp`, which is not among the sources.
Spec: "`attach(observer)` - adds observer to the set; no-op (not an error) if
already present". -/
def registerObserver (self : Nat) (o : Observer) (w : World) : World :=
  w.withObservers self ((w.observables self).observers_.insert o)

/-- Modelled from the spec: the single-threaded
`Observable::unregisterObserver` is defined in `ql/patterns/observable.hpp`,
which is not among the sources.  Spec: "`detach(observer)` - removes observer
if present; no-op if absent". -/
def unregisterObserver (self : Nat) (o : Observer) (w : World) : World :=
  w.withObservers self ((w.observables self).observers_.erase o)

end SingleThreaded

namespace ThreadSafe

/-- `Observable::registerObserver(observerProxy)` on the Observable at
`self`: `observers_.insert(observerProxy)` under the Observable lock. -/
def registerObserver (self : Nat) (observerProxy : Observer) (w : World) : World :=
  w.withObservers self ((w.observables self).observers_.insert observerProxy)

/-- `Observable::unregisterObserver(observerProxy)` on the Observable at
`self`: `observers_.erase(observerProxy)` under the Observable lock, then,
if `updatesDeferred()` holds without and again with `settings_.mutex_`,
`settings_.unregisterDeferredObserver(observerProxy)`.  `others` is what
other threads did to the state between the unlocked read and the acquisition
of `settings_.mutex_` (the identity in a sequential run). -/
def unregisterObserver (others : World → World) (self : Nat) (observerProxy : Observer)
    (w : World) : World :=
  let w := w.withObservers self ((w.observables self).observers_.erase observerProxy)
  if w.settings_.updatesDeferred_ then
    let w := others w
    if w.settings_.updatesDeferred_ then
      w.withSettings (w.settings_.unregisterDeferredObserver observerProxy)
    else w
  else w

/-- `Observable::Observable(const Observable&)`, constructing the Observable
at address `self`: "the observer set is not copied", the member `observers_`
is default-constructed. -/
def copyConstruct (self : Nat) (w : World) : World :=
  w.withObservers self []

/-- The loop `for (auto const &o : observers_copy_) { if (o) { o->update(); } }`
over the copy of the observer set.  There is no `try` block: an exception of
`update()` leaves the loop and the function. -/
def dispatchCopy (update : Update) : List Observer → World → List Call → Run
  | [], w, calls => { outcome := .returned, world := w, calls := calls }
  | o :: rest, w, calls =>
    if o ≠ 0 then
      let r := update o w
      match r.1 with
      | none => dispatchCopy update rest r.2 (calls ++ [(o, none)])
      | some e => { outcome := .threw e, world := r.2, calls := calls ++ [(o, some e)] }
    else dispatchCopy update rest w calls

/-- `Observable::notifyObservers()`, thread-safe configuration, on the
Observable at address `self`.  `others` is what other threads did to the
state between the unlocked read of `updatesEnabled()` and the acquisition of
`settings_.mutex_` (the identity in a sequential run). -/
def notifyObservers (update : Update) (others : World → World) (self : Nat) (w : World) : Run :=
  if w.settings_.updatesEnabled_ then
    dispatchCopy update (w.observables self).observers_ w []
  else
    let w := others w
    if w.settings_.updatesEnabled_ then
      dispatchCopy update (w.observables self).observers_ w []
    else if w.settings_.updatesDeferred_ then
      { outcome := .returned,
        world := w.withSettings
          (w.settings_.registerDeferredObservers (w.observables self).observers_),
        calls := [] }
    else { outcome := .returned, world := w, calls := [] }

/-- Modelled from the spec: the thread-safe `ObservableSettings::enableUpdates`
is defined in `ql/patterns/observable.hpp`, which is not among the sources.
The spec has one `enableUpdates` for both configurations: it "sets
`enabled=true`, `deferred=false`, then, if `pendingSubjects` is non-empty,
performs one replay pass", with "the same failure-aggregation rule", and
"clears `pendingSubjects` unconditionally afterward", which is what the
single-threaded function of the sources does. -/
def enableUpdates (update : Update) (fuel : Nat) (w : World) : Option Run :=
  SingleThreaded.enableUpdates update fuel w

/-- A mutex of the thread-safe configuration: the member `mutex_` (a
`std::recursive_mutex`) of the Observable at an address, or the member
`mutex_` (a `std::mutex`) of the settings singleton. -/
inductive Mutex where
  | observable (self : Nat)
  | settings
  deriving DecidableEq, Repr

/-- What the calling thread does, as far as locking is concerned: the
construction of a `std::scoped_lock` on a mutex, its destruction at the end
of its scope, and a call of `update()` on an observer. -/
inductive Event where
  | lock (m : Mutex)
  | unlock (m : Mutex)
  | update (o : Observer)
  deriving DecidableEq, Repr

/-- The `update()` calls of a run, as events of the calling thread. -/
def updateEvents (r : Run) : List Event :=
  r.calls.map (fun c => Event.update c.1)

/-- The events of the calling thread in `Observable::notifyObservers()`,
thread-safe configuration, with `others` as in `notifyObservers`.  Each
`std::scoped_lock` lives to the end of the block that declares it: `lock` to
the `return` after the loop (or to the end of the `else if` block), `sLock`
to the end of the function; an exception of `update()` destroys them on its
way out. -/
def notifyObserversEvents (update : Update) (others : World → World) (self : Nat)
    (w : World) : List Event :=
  if w.settings_.updatesEnabled_ then
    [Event.lock (.observable self)] ++
      updateEvents (dispatchCopy update (w.observables self).observers_ w []) ++
      [Event.unlock (.observable self)]
  else
    let w := others w
    [Event.lock .settings] ++
      (if w.settings_.updatesEnabled_ then
        [Event.lock (.observable self)] ++
          updateEvents (dispatchCopy update (w.observables self).observers_ w []) ++
          [Event.unlock (.observable self)]
      else if w.settings_.updatesDeferred_ then
        [Event.lock (.observable self), Event.unlock (.observable self)]
      else []) ++
      [Event.unlock .settings]

/-- The mutexes that the thread holds at each of its `update()` calls, from
the mutexes `held` at the start of the events. -/
def heldAtUpdates : List Mutex → List Event → List (Observer × List Mutex)
  | _, [] => []
  | held, .lock m :: events => heldAtUpdates (m :: held) events
  | held, .unlock m :: events => heldAtUpdates (held.erase m) events
  | held, .update o :: events => (o, held) :: heldAtUpdates held events

end ThreadSafe

/-! ## Vocabulary of the statements -/

/-- The observers on which a run called `update()`, in order. -/
def Run.updated (r : Run) : List Observer := r.calls.map Prod.fst

/-- The failures of the `update()` calls of a pass, in iteration order. -/
def failures (calls : List Call) : List Thrown := calls.filterMap Prod.snd

/-- The text of the last failure of a pass that carries a text, the empty
string when there is none. -/
def lastText (calls : List Call) : String :=
  ((calls.filterMap (fun c => c.2.bind Thrown.what)).getLast?).getD ""

/-- Whether the characters `text` are the first characters of `message`. -/
def startsWith : List Char → List Char → Bool
  | [], _ => true
  | _ :: _, [] => false
  | a :: text, b :: message => a == b && startsWith text message

/-- Whether the characters `text` occur, contiguously, in `message`. -/
def occursIn (text : List Char) : List Char → Bool
  | [] => startsWith text []
  | c :: message => startsWith text (c :: message) || occursIn text message

/-- Whether a message carries the text `text`. -/
def carriesText (message text : String) : Bool :=
  occursIn text.data message.data

/-- Thread-safe configuration, sequential run: the Observables at `o1` and
`o2` call `notifyObservers`, in this order, then the observer `x` is detached
from the Observable at `o1`.  The state that is left. -/
def ThreadSafe.notifyBothThenDetach (update : Update) (o1 o2 : Nat) (x : Observer)
    (w : World) : World :=
  ThreadSafe.unregisterObserver id o1 x
    (ThreadSafe.notifyObservers update id o2
      (ThreadSafe.notifyObservers update id o1 w).world).world

/-- `update()` never changes the observer set of the Observable at `self`. -/
def KeepsObservers (update : Update) (self : Nat) : Prop :=
  ∀ o w, ((update o w).2.observables self).observers_ = (w.observables self).observers_

/-- `update()` never changes the pending set of the settings singleton. -/
def KeepsPending (update : Update) : Prop :=
  ∀ o w, (update o w).2.settings_.deferredObservers_ = w.settings_.deferredObservers_

/-- `update()` never changes the flags of the settings singleton. -/
def KeepsFlags (update : Update) : Prop :=
  ∀ o w, (update o w).2.settings_.updatesEnabled_ = w.settings_.updatesEnabled_ ∧
    (update o w).2.settings_.updatesDeferred_ = w.settings_.updatesDeferred_

namespace SingleThreaded

/-- The dispatch loop over a container that no `update()` changes: a pass
over the elements `rest` still ahead of the iterator. -/
def sweep (update : Update) : List Observer → Locals → World → List Call →
    Locals × World × List Call
  | [], v, w, calls => (v, w, calls)
  | o :: rest, v, w, calls =>
    let r := update o w
    sweep update rest (catchUpdate r.1 v) r.2 (calls ++ [(o, r.1)])

/-- What the locals of a dispatch loop hold after the calls `calls`. -/
def LocalsTrack (v : Locals) (calls : List Call) : Prop :=
  v.successful = (failures calls).isEmpty ∧ v.errMsg = lastText calls

/-- `k` successive calls of `notifyObservers` on the Observable at `self`,
each of which returns: the state left and the `update()` calls made by all of
them.  `none` if one of the calls threw or ran out of fuel. -/
def notifyRepeatedly (update : Update) (fuel : Nat) (self : Nat) :
    Nat → World → Option (World × List Call)
  | 0, w => some (w, [])
  | k + 1, w =>
    match notifyObservers update fuel self w with
    | none => none
    | some r =>
      if r.outcome = .returned then
        match notifyRepeatedly update fuel self k r.world with
        | none => none
        | some (w, calls) => some (w, r.calls ++ calls)
      else none

/-- A call on the policy or on an Observable, single-threaded
configuration. -/
inductive Op where
  | disableUpdates (deferred : Bool)
  | enableUpdates
  | notifyObservers (self : Nat)
  deriving DecidableEq, Repr

/-- The state that one call leaves, whether the call returns or raises;
`none` when `fuel` iterations did not finish a loop. -/
def call (update : Update) (fuel : Nat) : Op → World → Option World
  | .disableUpdates deferred, w => some (w.withSettings (w.settings_.disableUpdates deferred))
  | .enableUpdates, w => (enableUpdates update fuel w).map (fun r => r.world)
  | .notifyObservers self, w => (notifyObservers update fuel self w).map (fun r => r.world)

/-- The state that a sequence of calls leaves, each call made in the state
left by the one before, whether that one returned or raised. -/
def callAll (update : Update) (fuel : Nat) : List Op → World → Option World
  | [], w => some w
  | op :: ops, w => (call update fuel op w).bind (callAll update fuel ops)

/-- The number of observers attached to the Observables that the calls
`ops` notify, counted once per `notifyObservers`. -/
def attachedTo (w : World) : List Op → Nat
  | [] => 0
  | .notifyObservers self :: ops => (w.observables self).observers_.length + attachedTo w ops
  | _ :: ops => attachedTo w ops

end SingleThreaded

/-! ## A scenario: Observable `O` with observers `A`, `B`, `C` -/

namespace Scenario

/-- Address of the Observable `O`. -/
def O : Nat := 7

/-- The default state of the policy, and the Observable `O` with the
observers `A = 1`, `B = 2` and `C = 3` attached; every other Observable has
no observer. -/
def world : World :=
  { settings_ := ObservableSettings.initial,
    observables := fun a => if a = O then { observers_ := [1, 2, 3] } else { observers_ := [] } }

/-- The scenario after `disableUpdates(deferred)`. -/
def disabled (deferred : Bool) : World :=
  world.withSettings (world.settings_.disableUpdates deferred)

/-- The scenario with `A`, `B` and `C` in the pending set, updates disabled
and deferred. -/
def pending : World :=
  world.withSettings
    { updatesEnabled_ := false, updatesDeferred_ := true, deferredObservers_ := [1, 2, 3] }

/-- Observers whose `update()` leaves the state alone and throws what
`thrown` says. -/
def outcomes (thrown : Observer → Option Thrown) : Update :=
  fun o w => (thrown o, w)

/-- Only `A` fails, with a `std::exception`. -/
def onlyAFails : Update :=
  outcomes (fun o => if o = 1 then some (.stdException "A failed") else none)

/-- `A` and `B` fail, each with a `std::exception`; `C` succeeds. -/
def aAndBFail : Update :=
  outcomes (fun o =>
    if o = 1 then some (.stdException "A failed")
    else if o = 2 then some (.stdException "B failed") else none)

/-- Every `update()` returns. -/
def allSucceed : Update :=
  outcomes (fun _ => none)

/-- Only `A` fails, with an exception that is not a `std::exception`. -/
def onlyAUnknown : Update :=
  outcomes (fun o => if o = 1 then some .unknown else none)

/-- `A` fails with a `std::exception`, then `B` fails with an exception that
is not a `std::exception`; `C` succeeds. -/
def aFailsThenBUnknown : Update :=
  outcomes (fun o =>
    if o = 1 then some (.stdException "A failed")
    else if o = 2 then some .unknown else none)

/-- Another thread runs `enableUpdates()` on an empty pending set. -/
def enabledMeanwhile : World → World :=
  fun w => w.withSettings
    { w.settings_ with updatesEnabled_ := true, updatesDeferred_ := false }

/-- A sequence of calls: deferral, three notifications of `O`, replay, then a
plain disabling and a notification. -/
def calls : List SingleThreaded.Op :=
  [.disableUpdates true, .notifyObservers O, .notifyObservers O, .notifyObservers O,
    .enableUpdates, .disableUpdates false, .notifyObservers O, .enableUpdates,
    .notifyObservers O]

/-- Address of a second Observable `O2`. -/
def O2 : Nat := 8

/-- Updates disabled and deferred, nothing pending; `A`, `B`, `C` attached to
`O`, and `A` attached to `O2` as well. -/
def shared : World :=
  { settings_ :=
      { updatesEnabled_ := false, updatesDeferred_ := true, deferredObservers_ := [] },
    observables := fun a =>
      if a = O then { observers_ := [1, 2, 3] }
      else if a = O2 then { observers_ := [1] } else { observers_ := [] } }

/-- Single-threaded configuration: the `update()` of `A` detaches `C` from
`O`; every `update()` returns. -/
def aDetachesC : Update :=
  fun o w => (none, if o = 1 then SingleThreaded.unregisterObserver O 3 w else w)

/-- Thread-safe configuration: every `update()` detaches its own observer
from `O` and returns. -/
def selfDetaching : Update :=
  fun o w => (none, ThreadSafe.unregisterObserver id O o w)

end Scenario

/-! ## Sets -/

theorem set_type.next_append (pre rest : List Observer) (o : Observer) (h : o ∉ pre) :
    set_type.next (pre ++ o :: rest) o = rest.head? := by
  induction pre with
  | nil => simp [set_type.next]
  | cons x xs ih =>
    have hx : x ≠ o := fun e => h (by simp [e])
    have hxs : o ∉ xs := fun e => h (by simp [e])
    simp [set_type.next, hx, ih hxs]

theorem set_type.insert_of_mem (s : set_type) (o : Observer) (h : o ∈ s) :
    set_type.insert s o = s := by
  simp [set_type.insert, h]

theorem set_type.insertRange_of_subset (s : set_type) (range : List Observer)
    (h : ∀ o ∈ range, o ∈ s) : set_type.insertRange s range = s := by
  induction range with
  | nil => rfl
  | cons x xs ih =>
    have hx : x ∈ s := h x (by simp)
    simp only [set_type.insertRange, List.foldl_cons, set_type.insert_of_mem s x hx]
    exact ih (fun o ho => h o (by simp [ho]))

theorem set_type.insertRange_append (pre range : List Observer) (h : (pre ++ range).Nodup) :
    set_type.insertRange pre range = pre ++ range := by
  induction range generalizing pre with
  | nil => simp [set_type.insertRange]
  | cons x xs ih =>
    have hx : x ∉ pre := by
      intro hmem
      have := List.disjoint_of_nodup_append h hmem
      simp at this
    have h2 : ((pre ++ [x]) ++ xs).Nodup := by simpa using h
    have := ih (pre ++ [x]) h2
    simp only [set_type.insertRange, List.foldl_cons, set_type.insert, hx, if_false] at this ⊢
    simpa using this

theorem set_type.insertRange_nil (range : List Observer) (h : range.Nodup) :
    set_type.insertRange [] range = range := by
  simpa using set_type.insertRange_append [] range (by simpa using h)

/-! ## The dispatch loop -/

namespace SingleThreaded

theorem dispatchLoop_end (update : Update) (container : World → set_type) (fuel : Nat)
    (v : Locals) (w : World) (calls : List Call) :
    dispatchLoop update container fuel none v w calls = some (v, w, calls) := by
  cases fuel <;> rfl

/-- Over a container that no `update()` changes, the loop is a pass over the
elements ahead of the iterator, and `fuel` of their number is enough. -/
theorem dispatchLoop_eq_sweep (update : Update) (container : World → set_type)
    (hkeep : ∀ o w, container (update o w).2 = container w)
    (rest : List Observer) :
    ∀ (pre : List Observer) (fuel : Nat) (v : Locals) (w : World) (calls : List Call),
      container w = pre ++ rest → (pre ++ rest).Nodup → rest.length ≤ fuel →
      dispatchLoop update container fuel rest.head? v w calls =
        some (sweep update rest v w calls) := by
  induction rest with
  | nil =>
    intro pre fuel v w calls _ _ _
    simp [dispatchLoop_end, sweep]
  | cons o rest ih =>
    intro pre fuel v w calls hc hnd hfuel
    cases fuel with
    | zero => simp at hfuel
    | succ fuel =>
      have ho : o ∉ pre := by
        intro hmem
        have := List.disjoint_of_nodup_append hnd hmem
        simp at this
      have hc2 : container (update o w).2 = (pre ++ [o]) ++ rest := by
        rw [hkeep, hc]; simp
      have hnext : (container (update o w).2).next o = rest.head? := by
        rw [hkeep, hc]; exact set_type.next_append pre rest o ho
      simp only [List.head?_cons, dispatchLoop, sweep, hnext]
      exact ih (pre ++ [o]) fuel _ _ _ hc2 (by simpa using hnd)
        (by simpa using hfuel)

theorem failures_append (a b : List Call) : failures (a ++ b) = failures a ++ failures b := by
  simp [failures]

theorem LocalsTrack.step (v : Locals) (calls : List Call) (o : Observer)
    (thrown : Option Thrown) (h : LocalsTrack v calls) :
    LocalsTrack (catchUpdate thrown v) (calls ++ [(o, thrown)]) := by
  obtain ⟨h1, h2⟩ := h
  cases thrown with
  | none => simpa [LocalsTrack, catchUpdate, failures, lastText] using And.intro h1 h2
  | some e =>
    cases hw : e.what with
    | none =>
      simpa [LocalsTrack, catchUpdate, failures, lastText, hw] using h2
    | some text =>
      simp [LocalsTrack, catchUpdate, failures, lastText, hw, List.filterMap_append]

theorem LocalsTrack.init : LocalsTrack ⟨true, ""⟩ [] := by
  simp [LocalsTrack, failures, lastText]

/-- A pass calls `update()` on the elements ahead of the iterator, in order,
and its locals track the failures. -/
theorem sweep_spec (update : Update) (rest : List Observer) :
    ∀ (v : Locals) (w : World) (calls : List Call), LocalsTrack v calls →
      LocalsTrack (sweep update rest v w calls).1 (sweep update rest v w calls).2.2 ∧
      (sweep update rest v w calls).2.2.map Prod.fst = calls.map Prod.fst ++ rest := by
  induction rest with
  | nil => intro v w calls h; simpa [sweep] using h
  | cons o rest ih =>
    intro v w calls h
    have := ih (catchUpdate (update o w).1 v) (update o w).2 (calls ++ [(o, (update o w).1)])
      (LocalsTrack.step v calls o (update o w).1 h)
    simpa [sweep] using this

/-- The loop keeps every property of the state that `update()` keeps. -/
theorem dispatchLoop_keeps (update : Update) (container : World → set_type)
    (P : World → Prop) (hP : ∀ o w, P w → P (update o w).2) :
    ∀ (fuel : Nat) (i : Option Observer) (v : Locals) (w : World) (calls : List Call)
      (res : Locals × World × List Call),
      P w → dispatchLoop update container fuel i v w calls = some res → P res.2.1 := by
  intro fuel
  induction fuel with
  | zero =>
    intro i v w calls res hw h
    cases i with
    | none => simp [dispatchLoop] at h; subst h; exact hw
    | some o => simp [dispatchLoop] at h
  | succ fuel ih =>
    intro i v w calls res hw h
    cases i with
    | none => simp [dispatchLoop] at h; subst h; exact hw
    | some o =>
      simp only [dispatchLoop] at h
      exact ih _ _ _ _ res (hP o w hw) h

/-- The run of `notifyObservers` with updates enabled, when no `update()`
changes the observer set: one call per observer, in iteration order, then the
`QL_ENSURE`. -/
theorem notifyObservers_enabled_run (update : Update) (fuel self : Nat) (w : World)
    (henabled : w.settings_.updatesEnabled_ = true)
    (hnodup : (w.observables self).observers_.Nodup)
    (hkeep : KeepsObservers update self)
    (hfuel : (w.observables self).observers_.length ≤ fuel) :
    ∃ r, notifyObservers update fuel self w = some r ∧
      r.updated = (w.observables self).observers_ ∧
      r.outcome = QL_ENSURE (failures r.calls).isEmpty
        ("could not notify one or more observers: " ++ lastText r.calls) := by
  unfold notifyObservers
  simp only [henabled, Bool.not_true, Bool.false_eq_true, if_false]
  by_cases hlen : (w.observables self).observers_.length ≠ 0
  · rw [if_pos hlen]
    have hloop := dispatchLoop_eq_sweep update (fun x => (x.observables self).observers_)
      hkeep (w.observables self).observers_ [] fuel ⟨true, ""⟩ w [] (by simp)
      (by simpa using hnodup) hfuel
    have hspec := sweep_spec update (w.observables self).observers_ ⟨true, ""⟩ w []
      LocalsTrack.init
    rw [hloop]
    obtain ⟨⟨h1, h2⟩, h3⟩ := hspec
    refine ⟨_, rfl, ?_, ?_⟩
    · simpa [Run.updated] using h3
    · simp only [h1, h2]
  · rw [if_neg hlen]
    have hnil : (w.observables self).observers_ = [] := by
      simpa using hlen
    refine ⟨_, rfl, ?_, ?_⟩
    · simp [Run.updated, hnil]
    · simp [failures, QL_ENSURE]

/-- The run of `enableUpdates` when no `update()` changes the pending set:
one call per pending entry, in iteration order, then the `clear()` and the
`QL_ENSURE`. -/
theorem enableUpdates_run (update : Update) (fuel : Nat) (w : World)
    (hnodup : w.settings_.deferredObservers_.Nodup)
    (hkeep : KeepsPending update)
    (hfuel : w.settings_.deferredObservers_.length ≤ fuel) :
    ∃ r, enableUpdates update fuel w = some r ∧
      r.updated = w.settings_.deferredObservers_ ∧
      r.outcome = QL_ENSURE (failures r.calls).isEmpty
        ("could not notify one or more observers: " ++ lastText r.calls) := by
  unfold enableUpdates
  simp only [World.withSettings]
  by_cases hlen : w.settings_.deferredObservers_.length ≠ 0
  · rw [if_pos hlen]
    have hloop := dispatchLoop_eq_sweep update (fun x => x.settings_.deferredObservers_)
      hkeep w.settings_.deferredObservers_ [] fuel ⟨true, ""⟩
      { w with settings_ :=
          { w.settings_ with updatesEnabled_ := true, updatesDeferred_ := false } } []
      (by simp) (by simpa using hnodup) hfuel
    have hspec := sweep_spec update w.settings_.deferredObservers_ ⟨true, ""⟩
      { w with settings_ :=
          { w.settings_ with updatesEnabled_ := true, updatesDeferred_ := false } } []
      LocalsTrack.init
    rw [hloop]
    obtain ⟨⟨h1, h2⟩, h3⟩ := hspec
    refine ⟨_, rfl, ?_, ?_⟩
    · simpa [Run.updated] using h3
    · simp only [h1, h2]
  · rw [if_neg hlen]
    have hnil : w.settings_.deferredObservers_ = [] := by
      simpa using hlen
    refine ⟨_, rfl, ?_, ?_⟩
    · simp [Run.updated, hnil]
    · simp [failures, QL_ENSURE]

end SingleThreaded

theorem count_of_nodup (l : List Observer) (h : l.Nodup) (o : Observer) :
    l.count o = if o ∈ l then 1 else 0 := by
  by_cases ho : o ∈ l
  · simp [ho, List.count_eq_one_of_mem h ho]
  · simp [ho, List.count_eq_zero_of_not_mem ho]

theorem failures_isEmpty_iff (calls : List Call) :
    (failures calls).isEmpty = true ↔ ∀ c ∈ calls, c.2 = none := by
  induction calls with
  | nil => simp [failures]
  | cons c cs ih =>
    obtain ⟨o, t⟩ := c
    cases t with
    | none => simp [failures]
    | some e => simp [failures]

theorem QL_ENSURE_returned_iff (condition : Bool) (message : String) :
    QL_ENSURE condition message = .returned ↔ condition = true := by
  cases condition <;> simp [QL_ENSURE]

theorem QL_ENSURE_threw_iff (condition : Bool) (message : String) :
    (∃ m, QL_ENSURE condition message = .threw (.Error m)) ↔ condition = false := by
  cases condition <;> simp [QL_ENSURE]

theorem Scenario.outcomes_keepsObservers (thrown : Observer → Option Thrown) (self : Nat) :
    KeepsObservers (Scenario.outcomes thrown) self :=
  fun _ _ => rfl

theorem Scenario.outcomes_keepsPending (thrown : Observer → Option Thrown) :
    KeepsPending (Scenario.outcomes thrown) :=
  fun _ _ => rfl

theorem Scenario.outcomes_keepsFlags (thrown : Observer → Option Thrown) :
    KeepsFlags (Scenario.outcomes thrown) :=
  fun _ _ => ⟨rfl, rfl⟩

theorem lastText_of_last_failure (calls : List Call) (e : Thrown) (text : String)
    (hlast : (failures calls).getLast? = some e) (hwhat : e.what = some text) :
    lastText calls = text := by
  have h1 : calls.filterMap (fun c => c.2.bind Thrown.what) =
      (failures calls).filterMap Thrown.what := by
    simp [failures, List.filterMap_filterMap]
  obtain ⟨ys, hys⟩ := List.getLast?_eq_some_iff.mp hlast
  simp [lastText, h1, hys, List.filterMap_append, hwhat]

/-- The aggregated failure of a pass whose last failure carries a text. -/
theorem QL_ENSURE_last_failure (calls : List Call) (e : Thrown)
    (hall : ∀ f ∈ failures calls, f.what ≠ none)
    (hlast : (failures calls).getLast? = some e) :
    ∃ text, e.what = some text ∧
      QL_ENSURE (failures calls).isEmpty
          ("could not notify one or more observers: " ++ lastText calls) =
        .threw (.Error ("could not notify one or more observers: " ++ text)) := by
  have hmem : e ∈ failures calls := List.mem_of_getLast?_eq_some hlast
  obtain ⟨text, htext⟩ := Option.ne_none_iff_exists'.mp (hall e hmem)
  have hne : (failures calls).isEmpty = false := by
    cases hf : failures calls with
    | nil => rw [hf] at hmem; simp at hmem
    | cons _ _ => rfl
  refine ⟨text, htext, ?_⟩
  rw [hne, lastText_of_last_failure calls e text hlast htext]
  rfl

/-- While updates are disabled and deferred, `notifyObservers` returns after
adding the observer set to the pending set. -/
theorem SingleThreaded.notifyObservers_deferred (update : Update) (fuel self : Nat) (w : World)
    (hdisabled : w.settings_.updatesEnabled_ = false)
    (hdeferred : w.settings_.updatesDeferred_ = true) :
    SingleThreaded.notifyObservers update fuel self w =
      some { outcome := .returned,
             world := w.withSettings { w.settings_ with
               deferredObservers_ :=
                 w.settings_.deferredObservers_.insertRange (w.observables self).observers_ },
             calls := [] } := by
  simp [SingleThreaded.notifyObservers, hdisabled,
    ObservableSettings.registerDeferredObservers, hdeferred]

/-- Once the observer set is in the pending set, further deferred
notifications change nothing. -/
theorem SingleThreaded.notifyRepeatedly_deferred (update : Update) (fuel self : Nat) (k : Nat)
    (w : World) (hdisabled : w.settings_.updatesEnabled_ = false)
    (hdeferred : w.settings_.updatesDeferred_ = true)
    (hpending : w.settings_.deferredObservers_ = (w.observables self).observers_) :
    SingleThreaded.notifyRepeatedly update fuel self k w = some (w, []) := by
  induction k with
  | zero => rfl
  | succ k ih =>
    have hsame : w.withSettings { w.settings_ with
        deferredObservers_ :=
          w.settings_.deferredObservers_.insertRange (w.observables self).observers_ } = w := by
      rw [set_type.insertRange_of_subset _ _ (by rw [hpending]; exact fun _ h => h)]
      rfl
    simp only [SingleThreaded.notifyRepeatedly,
      SingleThreaded.notifyObservers_deferred update fuel self w hdisabled hdeferred, hsame,
      if_true, ih, List.append_nil]

/-! ## Notification with updates enabled -/

/-- C1. Single-threaded configuration: with updates enabled, on an observer
set of N distinct observers that no `update()` modifies, one call of
`Observable::notifyObservers` makes exactly N calls of `update()`, one on each
of the N observers and none on any other observer, whatever the `update()`
calls throw. -/
theorem notifyObservers_updates_each_once (update : Update) (fuel self : Nat) (w : World)
    (henabled : w.settings_.updatesEnabled_ = true)
    (hnodup : (w.observables self).observers_.Nodup)
    (hkeep : KeepsObservers update self)
    (hfuel : (w.observables self).observers_.length ≤ fuel) :
    ∃ r, SingleThreaded.notifyObservers update fuel self w = some r ∧
      r.updated.length = (w.observables self).observers_.length ∧
      ∀ o, r.updated.count o = if o ∈ (w.observables self).observers_ then 1 else 0 := by
  obtain ⟨r, hr, hupd, _⟩ :=
    SingleThreaded.notifyObservers_enabled_run update fuel self w henabled hnodup hkeep hfuel
  refine ⟨r, hr, by rw [hupd], fun o => ?_⟩
  rw [hupd]
  exact count_of_nodup _ hnodup o

/-- Witness of C1: `A`, `B`, `C` attached to `O`, `A` and `B` failing. -/
theorem notifyObservers_updates_each_once_witness :
    (Scenario.world.settings_.updatesEnabled_ = true ∧
      (Scenario.world.observables Scenario.O).observers_.Nodup ∧
      KeepsObservers Scenario.aAndBFail Scenario.O ∧
      (Scenario.world.observables Scenario.O).observers_.length ≤ 3) ∧
    ∃ r, SingleThreaded.notifyObservers Scenario.aAndBFail 3 Scenario.O Scenario.world = some r ∧
      r.updated.length = (Scenario.world.observables Scenario.O).observers_.length ∧
      ∀ o, r.updated.count o =
        if o ∈ (Scenario.world.observables Scenario.O).observers_ then 1 else 0 :=
  ⟨⟨rfl, by decide, Scenario.outcomes_keepsObservers _ _, by decide⟩,
    notifyObservers_updates_each_once Scenario.aAndBFail 3 Scenario.O Scenario.world rfl
      (by decide) (Scenario.outcomes_keepsObservers _ _) (by decide)⟩

/-- C2. Single-threaded configuration: with updates enabled (and an observer
set that no `update()` modifies), `Observable::notifyObservers` raises the
aggregated `QuantLib::Error` if and only if at least one `update()` of the
pass failed, and returns normally if and only if none did, in particular when
the observer set is empty; in both cases the pass has called `update()` on the
whole observer set before the call ends. -/
theorem notifyObservers_raises_iff_failure (update : Update) (fuel self : Nat) (w : World)
    (henabled : w.settings_.updatesEnabled_ = true)
    (hnodup : (w.observables self).observers_.Nodup)
    (hkeep : KeepsObservers update self)
    (hfuel : (w.observables self).observers_.length ≤ fuel) :
    ∃ r, SingleThreaded.notifyObservers update fuel self w = some r ∧
      r.updated = (w.observables self).observers_ ∧
      ((∃ message, r.outcome = .threw (.Error message)) ↔ ∃ c ∈ r.calls, c.2 ≠ none) ∧
      (r.outcome = .returned ↔ ∀ c ∈ r.calls, c.2 = none) ∧
      ((w.observables self).observers_ = [] → r.outcome = .returned) := by
  obtain ⟨r, hr, hupd, hout⟩ :=
    SingleThreaded.notifyObservers_enabled_run update fuel self w henabled hnodup hkeep hfuel
  have hret : r.outcome = .returned ↔ ∀ c ∈ r.calls, c.2 = none := by
    rw [hout, QL_ENSURE_returned_iff, failures_isEmpty_iff]
  refine ⟨r, hr, hupd, ?_, hret, ?_⟩
  · rw [hout, QL_ENSURE_threw_iff, ← Bool.not_eq_true, failures_isEmpty_iff]
    push_neg
    rfl
  · intro hnil
    rw [hret]
    have : r.calls = [] := by
      have h := hupd
      rw [hnil] at h
      simpa [Run.updated] using h
    simp [this]

/-- Witness of C2: `A`, `B`, `C` attached to `O`, only `A` failing. -/
theorem notifyObservers_raises_iff_failure_witness :
    (Scenario.world.settings_.updatesEnabled_ = true ∧
      (Scenario.world.observables Scenario.O).observers_.Nodup ∧
      KeepsObservers Scenario.onlyAFails Scenario.O ∧
      (Scenario.world.observables Scenario.O).observers_.length ≤ 5) ∧
    ∃ r, SingleThreaded.notifyObservers Scenario.onlyAFails 5 Scenario.O Scenario.world = some r ∧
      r.updated = (Scenario.world.observables Scenario.O).observers_ ∧
      ((∃ message, r.outcome = .threw (.Error message)) ↔ ∃ c ∈ r.calls, c.2 ≠ none) ∧
      (r.outcome = .returned ↔ ∀ c ∈ r.calls, c.2 = none) ∧
      ((Scenario.world.observables Scenario.O).observers_ = [] → r.outcome = .returned) :=
  ⟨⟨rfl, by decide, Scenario.outcomes_keepsObservers _ _, by decide⟩,
    notifyObservers_raises_iff_failure Scenario.onlyAFails 5 Scenario.O Scenario.world rfl
      (by decide) (Scenario.outcomes_keepsObservers _ _) (by decide)⟩

/-- C3, evaluated on the code.  Thread-safe configuration, updates enabled,
observers `A`, `B`, `C` attached to `O`, `A` failing and `B`, `C` succeeding:
`Observable::notifyObservers` calls `update()` on `A` only and the failure of
`A` itself leaves the call, where the single-threaded configuration on the
same input calls all three and raises the aggregated `QuantLib::Error`. -/
theorem threadSafe_notifyObservers_stops_at_failure :
    (ThreadSafe.notifyObservers Scenario.onlyAFails id Scenario.O Scenario.world).updated = [1] ∧
    (ThreadSafe.notifyObservers Scenario.onlyAFails id Scenario.O Scenario.world).outcome =
      .threw (.stdException "A failed") ∧
    (SingleThreaded.notifyObservers Scenario.onlyAFails 3 Scenario.O Scenario.world).map
        (fun r => (r.updated, r.outcome)) =
      some ([1, 2, 3],
        .threw (.Error "could not notify one or more observers: A failed")) := by
  decide

/-- C4. When updates are disabled, deferred or not, `Observable::notifyObservers`
calls `update()` on no observer and returns normally, in the single-threaded
configuration and in the thread-safe one (where the flag is read disabled
both without and with the settings lock). -/
theorem notifyObservers_disabled_calls_nothing (update : Update) (fuel self : Nat)
    (others : World → World) (w : World)
    (hdisabled : w.settings_.updatesEnabled_ = false)
    (hlocked : (others w).settings_.updatesEnabled_ = false) :
    (∃ r, SingleThreaded.notifyObservers update fuel self w = some r ∧
      r.calls = [] ∧ r.outcome = .returned) ∧
    (ThreadSafe.notifyObservers update others self w).calls = [] ∧
    (ThreadSafe.notifyObservers update others self w).outcome = .returned := by
  refine ⟨?_, ?_, ?_⟩
  · simp [SingleThreaded.notifyObservers, hdisabled]
  · simp only [ThreadSafe.notifyObservers, hdisabled, hlocked, Bool.false_eq_true, if_false]
    split <;> rfl
  · simp only [ThreadSafe.notifyObservers, hdisabled, hlocked, Bool.false_eq_true, if_false]
    split <;> rfl

/-- Witness of C4: the scenario after `disableUpdates(true)`, sequential run. -/
theorem notifyObservers_disabled_calls_nothing_witness :
    ((Scenario.disabled true).settings_.updatesEnabled_ = false ∧
      (id (Scenario.disabled true)).settings_.updatesEnabled_ = false) ∧
    (∃ r, SingleThreaded.notifyObservers Scenario.aAndBFail 0 Scenario.O
        (Scenario.disabled true) = some r ∧ r.calls = [] ∧ r.outcome = .returned) ∧
    (ThreadSafe.notifyObservers Scenario.aAndBFail id Scenario.O
        (Scenario.disabled true)).calls = [] ∧
    (ThreadSafe.notifyObservers Scenario.aAndBFail id Scenario.O
        (Scenario.disabled true)).outcome = .returned :=
  ⟨⟨rfl, rfl⟩,
    notifyObservers_disabled_calls_nothing Scenario.aAndBFail 0 Scenario.O id
      (Scenario.disabled true) rfl rfl⟩

/-! ## Deferral and replay -/

/-- C5. Deferral coalescing, single-threaded configuration: from an empty
pending set, after `disableUpdates(true)`, `k >= 1` calls of
`notifyObservers` on an Observable all return without any `update()` call,
and the `enableUpdates` that follows calls `update()` exactly once on each
observer of that Observable, and on no other (the pending set being left
alone by `update()`). -/
theorem deferral_coalesces (update : Update) (fuel self k : Nat) (w : World)
    (hempty : w.settings_.deferredObservers_ = [])
    (hnodup : (w.observables self).observers_.Nodup)
    (hkeep : KeepsPending update)
    (hk : 1 ≤ k)
    (hfuel : (w.observables self).observers_.length ≤ fuel) :
    ∃ w1 r,
      SingleThreaded.notifyRepeatedly update fuel self k
        (w.withSettings (w.settings_.disableUpdates true)) = some (w1, []) ∧
      SingleThreaded.enableUpdates update fuel w1 = some r ∧
      r.updated.length = (w.observables self).observers_.length ∧
      ∀ o, r.updated.count o = if o ∈ (w.observables self).observers_ then 1 else 0 := by
  obtain ⟨k, rfl⟩ : ∃ j, k = j + 1 := ⟨k - 1, by omega⟩
  let w0 := w.withSettings (w.settings_.disableUpdates true)
  let w1 := w0.withSettings { w0.settings_ with
    deferredObservers_ := (w.observables self).observers_ }
  have hfirst : SingleThreaded.notifyObservers update fuel self w0 =
      some { outcome := .returned, world := w1, calls := [] } := by
    rw [SingleThreaded.notifyObservers_deferred update fuel self w0 rfl rfl]
    have : w0.settings_.deferredObservers_.insertRange (w0.observables self).observers_ =
        (w.observables self).observers_ := by
      show set_type.insertRange w.settings_.deferredObservers_ _ = _
      rw [hempty]
      exact set_type.insertRange_nil _ hnodup
    rw [this]
  have hrest := SingleThreaded.notifyRepeatedly_deferred update fuel self k w1 rfl rfl rfl
  obtain ⟨r, hr, hupd, _⟩ :=
    SingleThreaded.enableUpdates_run update fuel w1 hnodup hkeep hfuel
  refine ⟨w1, r, ?_, hr, ?_, fun o => ?_⟩
  · show SingleThreaded.notifyRepeatedly update fuel self (k + 1) w0 = _
    simp only [SingleThreaded.notifyRepeatedly, hfirst, hrest, if_true, List.append_nil]
  · rw [hupd]; rfl
  · rw [hupd]
    exact count_of_nodup _ hnodup o

/-- Witness of C5: observers `A`, `B`, `C` attached to `O` and `k = 3`. -/
theorem deferral_coalesces_witness :
    (Scenario.world.settings_.deferredObservers_ = [] ∧
      (Scenario.world.observables Scenario.O).observers_.Nodup ∧
      KeepsPending Scenario.aAndBFail ∧ 1 ≤ 3 ∧
      (Scenario.world.observables Scenario.O).observers_.length ≤ 3) ∧
    ∃ w1 r,
      SingleThreaded.notifyRepeatedly Scenario.aAndBFail 3 Scenario.O 3
        (Scenario.world.withSettings (Scenario.world.settings_.disableUpdates true)) =
          some (w1, []) ∧
      SingleThreaded.enableUpdates Scenario.aAndBFail 3 w1 = some r ∧
      r.updated.length = (Scenario.world.observables Scenario.O).observers_.length ∧
      ∀ o, r.updated.count o =
        if o ∈ (Scenario.world.observables Scenario.O).observers_ then 1 else 0 :=
  ⟨⟨rfl, by decide, Scenario.outcomes_keepsPending _, by decide, by decide⟩,
    deferral_coalesces Scenario.aAndBFail 3 Scenario.O 3 Scenario.world rfl (by decide)
      (Scenario.outcomes_keepsPending _) (by decide) (by decide)⟩

/-- C6. `ObservableSettings::enableUpdates` calls `update()` exactly once on
every entry of the pending set and on no other observer, whatever the
`update()` calls throw (the pending set being left alone by `update()`): a
failing entry does not stop the replay of the others. -/
theorem enableUpdates_updates_each_pending_once (update : Update) (fuel : Nat) (w : World)
    (hnodup : w.settings_.deferredObservers_.Nodup)
    (hkeep : KeepsPending update)
    (hfuel : w.settings_.deferredObservers_.length ≤ fuel) :
    ∃ r, SingleThreaded.enableUpdates update fuel w = some r ∧
      r.updated.length = w.settings_.deferredObservers_.length ∧
      ∀ o, r.updated.count o = if o ∈ w.settings_.deferredObservers_ then 1 else 0 := by
  obtain ⟨r, hr, hupd, _⟩ := SingleThreaded.enableUpdates_run update fuel w hnodup hkeep hfuel
  refine ⟨r, hr, by rw [hupd], fun o => ?_⟩
  rw [hupd]
  exact count_of_nodup _ hnodup o

/-- Witness of C6: `A`, `B`, `C` pending, `A` and `B` failing. -/
theorem enableUpdates_updates_each_pending_once_witness :
    (Scenario.pending.settings_.deferredObservers_.Nodup ∧
      KeepsPending Scenario.aAndBFail ∧
      Scenario.pending.settings_.deferredObservers_.length ≤ 3) ∧
    ∃ r, SingleThreaded.enableUpdates Scenario.aAndBFail 3 Scenario.pending = some r ∧
      r.updated.length = Scenario.pending.settings_.deferredObservers_.length ∧
      ∀ o, r.updated.count o =
        if o ∈ Scenario.pending.settings_.deferredObservers_ then 1 else 0 :=
  ⟨⟨by decide, Scenario.outcomes_keepsPending _, by decide⟩,
    enableUpdates_updates_each_pending_once Scenario.aAndBFail 3 Scenario.pending
      (by decide) (Scenario.outcomes_keepsPending _) (by decide)⟩

/-- C7. `ObservableSettings::enableUpdates` raises the aggregated
`QuantLib::Error` if and only if the pending set was not empty and at least
one replayed `update()` failed; when the pending set is empty it calls no
`update()` and returns normally. -/
theorem enableUpdates_raises_iff_failure (update : Update) (fuel : Nat) (w : World)
    (hnodup : w.settings_.deferredObservers_.Nodup)
    (hkeep : KeepsPending update)
    (hfuel : w.settings_.deferredObservers_.length ≤ fuel) :
    ∃ r, SingleThreaded.enableUpdates update fuel w = some r ∧
      ((∃ message, r.outcome = .threw (.Error message)) ↔
        (w.settings_.deferredObservers_ ≠ [] ∧ ∃ c ∈ r.calls, c.2 ≠ none)) ∧
      (r.outcome = .returned ↔ ∀ c ∈ r.calls, c.2 = none) ∧
      (w.settings_.deferredObservers_ = [] → r.calls = [] ∧ r.outcome = .returned) := by
  obtain ⟨r, hr, hupd, hout⟩ :=
    SingleThreaded.enableUpdates_run update fuel w hnodup hkeep hfuel
  have hret : r.outcome = .returned ↔ ∀ c ∈ r.calls, c.2 = none := by
    rw [hout, QL_ENSURE_returned_iff, failures_isEmpty_iff]
  have hcalls : w.settings_.deferredObservers_ = [] → r.calls = [] := by
    intro hnil
    have h := hupd
    rw [hnil] at h
    simpa [Run.updated] using h
  have hthrew : (∃ message, r.outcome = .threw (.Error message)) ↔ ∃ c ∈ r.calls, c.2 ≠ none := by
    rw [hout, QL_ENSURE_threw_iff, ← Bool.not_eq_true, failures_isEmpty_iff]
    push_neg
    rfl
  refine ⟨r, hr, ?_, hret, fun hnil => ⟨hcalls hnil, ?_⟩⟩
  · rw [hthrew]
    constructor
    · intro h
      refine ⟨fun hnil => ?_, h⟩
      obtain ⟨c, hc, _⟩ := h
      rw [hcalls hnil] at hc
      simp at hc
    · exact fun h => h.2
  · rw [hret, hcalls hnil]
    simp

/-- Witness of C7: `A`, `B`, `C` pending, only `A` failing. -/
theorem enableUpdates_raises_iff_failure_witness :
    (Scenario.pending.settings_.deferredObservers_.Nodup ∧
      KeepsPending Scenario.onlyAFails ∧
      Scenario.pending.settings_.deferredObservers_.length ≤ 3) ∧
    ∃ r, SingleThreaded.enableUpdates Scenario.onlyAFails 3 Scenario.pending = some r ∧
      ((∃ message, r.outcome = .threw (.Error message)) ↔
        (Scenario.pending.settings_.deferredObservers_ ≠ [] ∧ ∃ c ∈ r.calls, c.2 ≠ none)) ∧
      (r.outcome = .returned ↔ ∀ c ∈ r.calls, c.2 = none) ∧
      (Scenario.pending.settings_.deferredObservers_ = [] →
        r.calls = [] ∧ r.outcome = .returned) :=
  ⟨⟨by decide, Scenario.outcomes_keepsPending _, by decide⟩,
    enableUpdates_raises_iff_failure Scenario.onlyAFails 3 Scenario.pending
      (by decide) (Scenario.outcomes_keepsPending _) (by decide)⟩

/-- C8. After `ObservableSettings::enableUpdates` the pending set is empty,
whether the call returns normally or raises the aggregated failure: this
holds of every completed call, whatever `update()` does, and the call
completes when `update()` leaves the pending set alone. -/
theorem enableUpdates_clears_pending (update : Update) (fuel : Nat) (w : World) :
    (∀ r, SingleThreaded.enableUpdates update fuel w = some r →
      r.world.settings_.deferredObservers_ = []) ∧
    (w.settings_.deferredObservers_.Nodup → KeepsPending update →
      w.settings_.deferredObservers_.length ≤ fuel →
      ∃ r, SingleThreaded.enableUpdates update fuel w = some r ∧
        r.world.settings_.deferredObservers_ = []) := by
  have hall : ∀ r, SingleThreaded.enableUpdates update fuel w = some r →
      r.world.settings_.deferredObservers_ = [] := by
    intro r hr
    unfold SingleThreaded.enableUpdates at hr
    simp only [World.withSettings] at hr
    by_cases hlen : w.settings_.deferredObservers_.length ≠ 0
    · rw [if_pos hlen] at hr
      split at hr
      · exact absurd hr (by simp)
      · cases hr; rfl
    · rw [if_neg hlen] at hr
      cases hr
      simpa using hlen
  refine ⟨hall, fun hnodup hkeep hfuel => ?_⟩
  obtain ⟨r, hr, _⟩ := SingleThreaded.enableUpdates_run update fuel w hnodup hkeep hfuel
  exact ⟨r, hr, hall r hr⟩

/-- Witness of C8: `A`, `B`, `C` pending, `A` and `B` failing, so that the
call raises. -/
theorem enableUpdates_clears_pending_witness :
    (SingleThreaded.enableUpdates Scenario.aAndBFail 3 Scenario.pending).map
        (fun r => (r.outcome, r.world.settings_.deferredObservers_)) =
      some (.threw (.Error "could not notify one or more observers: B failed"), []) ∧
    (Scenario.pending.settings_.deferredObservers_.Nodup ∧ KeepsPending Scenario.aAndBFail ∧
      Scenario.pending.settings_.deferredObservers_.length ≤ 3) ∧
    (∀ r, SingleThreaded.enableUpdates Scenario.aAndBFail 3 Scenario.pending = some r →
      r.world.settings_.deferredObservers_ = []) ∧
    ∃ r, SingleThreaded.enableUpdates Scenario.aAndBFail 3 Scenario.pending = some r ∧
      r.world.settings_.deferredObservers_ = [] :=
  ⟨by decide, ⟨by decide, Scenario.outcomes_keepsPending _, by decide⟩,
    (enableUpdates_clears_pending Scenario.aAndBFail 3 Scenario.pending).1,
    (enableUpdates_clears_pending Scenario.aAndBFail 3 Scenario.pending).2
      (by decide) (Scenario.outcomes_keepsPending _) (by decide)⟩

/-- C9. After `ObservableSettings::enableUpdates`, from any prior state of the
policy and whether the call returns normally or raises, `updatesEnabled` is
true and `updatesDeferred` is false, provided no `update()` changes the
flags: this holds of every completed call, and the call completes when
`update()` leaves the pending set alone. -/
theorem enableUpdates_sets_flags (update : Update) (fuel : Nat) (w : World)
    (hflags : KeepsFlags update) :
    (∀ r, SingleThreaded.enableUpdates update fuel w = some r →
      r.world.settings_.updatesEnabled_ = true ∧ r.world.settings_.updatesDeferred_ = false) ∧
    (w.settings_.deferredObservers_.Nodup → KeepsPending update →
      w.settings_.deferredObservers_.length ≤ fuel →
      ∃ r, SingleThreaded.enableUpdates update fuel w = some r ∧
        r.world.settings_.updatesEnabled_ = true ∧
        r.world.settings_.updatesDeferred_ = false) := by
  have hall : ∀ r, SingleThreaded.enableUpdates update fuel w = some r →
      r.world.settings_.updatesEnabled_ = true ∧
      r.world.settings_.updatesDeferred_ = false := by
    intro r hr
    unfold SingleThreaded.enableUpdates at hr
    simp only [World.withSettings] at hr
    by_cases hlen : w.settings_.deferredObservers_.length ≠ 0
    · rw [if_pos hlen] at hr
      split at hr
      · exact absurd hr (by simp)
      · rename_i v w2 calls hloop
        have hkept := SingleThreaded.dispatchLoop_keeps update
          (fun x => x.settings_.deferredObservers_)
          (fun x => x.settings_.updatesEnabled_ = true ∧ x.settings_.updatesDeferred_ = false)
          (fun o x hx => by
            obtain ⟨h1, h2⟩ := hflags o x
            exact ⟨h1.trans hx.1, h2.trans hx.2⟩)
          _ _ _ _ _ _ ⟨rfl, rfl⟩ hloop
        cases hr
        exact hkept
    · rw [if_neg hlen] at hr
      cases hr
      exact ⟨rfl, rfl⟩
  refine ⟨hall, fun hnodup hkeep hfuel => ?_⟩
  obtain ⟨r, hr, _⟩ := SingleThreaded.enableUpdates_run update fuel w hnodup hkeep hfuel
  exact ⟨r, hr, hall r hr⟩

/-- Witness of C9: from the deferred state with `A`, `B`, `C` pending, `A` and
`B` failing, so that the call raises. -/
theorem enableUpdates_sets_flags_witness :
    (SingleThreaded.enableUpdates Scenario.aAndBFail 3 Scenario.pending).map
        (fun r => (r.outcome, r.world.settings_.updatesEnabled_,
          r.world.settings_.updatesDeferred_)) =
      some (.threw (.Error "could not notify one or more observers: B failed"), true, false) ∧
    KeepsFlags Scenario.aAndBFail ∧
    (Scenario.pending.settings_.deferredObservers_.Nodup ∧ KeepsPending Scenario.aAndBFail ∧
      Scenario.pending.settings_.deferredObservers_.length ≤ 3) ∧
    (∀ r, SingleThreaded.enableUpdates Scenario.aAndBFail 3 Scenario.pending = some r →
      r.world.settings_.updatesEnabled_ = true ∧ r.world.settings_.updatesDeferred_ = false) ∧
    ∃ r, SingleThreaded.enableUpdates Scenario.aAndBFail 3 Scenario.pending = some r ∧
      r.world.settings_.updatesEnabled_ = true ∧ r.world.settings_.updatesDeferred_ = false :=
  ⟨by decide, Scenario.outcomes_keepsFlags _,
    ⟨by decide, Scenario.outcomes_keepsPending _, by decide⟩,
    (enableUpdates_sets_flags Scenario.aAndBFail 3 Scenario.pending
      (Scenario.outcomes_keepsFlags _)).1,
    (enableUpdates_sets_flags Scenario.aAndBFail 3 Scenario.pending
      (Scenario.outcomes_keepsFlags _)).2
      (by decide) (Scenario.outcomes_keepsPending _) (by decide)⟩

/-! ## The text of the aggregated failure -/

/-- C10. Single-threaded configuration: in a dispatch pass, of
`Observable::notifyObservers` with updates enabled or of the replay of
`ObservableSettings::enableUpdates`, in which every failure carries a text
and the last failure, in iteration order, is `e`, the call raises the
`QuantLib::Error` whose message is "could not notify one or more observers: "
followed by the text of `e`. -/
theorem aggregated_message_is_last_failure (update : Update) (fuel self : Nat)
    (wn we : World)
    (henabled : wn.settings_.updatesEnabled_ = true)
    (hnodupO : (wn.observables self).observers_.Nodup)
    (hkeepO : KeepsObservers update self)
    (hfuelO : (wn.observables self).observers_.length ≤ fuel)
    (hnodupP : we.settings_.deferredObservers_.Nodup)
    (hkeepP : KeepsPending update)
    (hfuelP : we.settings_.deferredObservers_.length ≤ fuel) :
    (∃ r, SingleThreaded.notifyObservers update fuel self wn = some r ∧
      ∀ e, (∀ f ∈ failures r.calls, f.what ≠ none) →
        (failures r.calls).getLast? = some e →
        ∃ text, e.what = some text ∧
          r.outcome = .threw (.Error ("could not notify one or more observers: " ++ text))) ∧
    (∃ r, SingleThreaded.enableUpdates update fuel we = some r ∧
      ∀ e, (∀ f ∈ failures r.calls, f.what ≠ none) →
        (failures r.calls).getLast? = some e →
        ∃ text, e.what = some text ∧
          r.outcome = .threw (.Error ("could not notify one or more observers: " ++ text))) := by
  constructor
  · obtain ⟨r, hr, _, hout⟩ := SingleThreaded.notifyObservers_enabled_run update fuel self wn
      henabled hnodupO hkeepO hfuelO
    refine ⟨r, hr, fun e hall hlast => ?_⟩
    rw [hout]
    exact QL_ENSURE_last_failure r.calls e hall hlast
  · obtain ⟨r, hr, _, hout⟩ := SingleThreaded.enableUpdates_run update fuel we
      hnodupP hkeepP hfuelP
    refine ⟨r, hr, fun e hall hlast => ?_⟩
    rw [hout]
    exact QL_ENSURE_last_failure r.calls e hall hlast

/-- Witness of C10: `A` and `B` fail with the texts "A failed" and "B failed",
on a notification of `O` and on a replay of the pending `A`, `B`, `C`; the
message carries "B failed". -/
theorem aggregated_message_is_last_failure_witness :
    ((SingleThreaded.notifyObservers Scenario.aAndBFail 3 Scenario.O Scenario.world).map
        (fun r => (failures r.calls, r.outcome)) =
      some ([.stdException "A failed", .stdException "B failed"],
        .threw (.Error "could not notify one or more observers: B failed"))) ∧
    (Scenario.world.settings_.updatesEnabled_ = true ∧
      (Scenario.world.observables Scenario.O).observers_.Nodup ∧
      KeepsObservers Scenario.aAndBFail Scenario.O ∧
      (Scenario.world.observables Scenario.O).observers_.length ≤ 3 ∧
      Scenario.pending.settings_.deferredObservers_.Nodup ∧
      KeepsPending Scenario.aAndBFail ∧
      Scenario.pending.settings_.deferredObservers_.length ≤ 3) ∧
    (∃ r, SingleThreaded.notifyObservers Scenario.aAndBFail 3 Scenario.O Scenario.world =
        some r ∧
      ∀ e, (∀ f ∈ failures r.calls, f.what ≠ none) →
        (failures r.calls).getLast? = some e →
        ∃ text, e.what = some text ∧
          r.outcome = .threw (.Error ("could not notify one or more observers: " ++ text))) ∧
    (∃ r, SingleThreaded.enableUpdates Scenario.aAndBFail 3 Scenario.pending = some r ∧
      ∀ e, (∀ f ∈ failures r.calls, f.what ≠ none) →
        (failures r.calls).getLast? = some e →
        ∃ text, e.what = some text ∧
          r.outcome = .threw (.Error ("could not notify one or more observers: " ++ text))) :=
  ⟨by decide,
    ⟨rfl, by decide, Scenario.outcomes_keepsObservers _ _, by decide, by decide,
      Scenario.outcomes_keepsPending _, by decide⟩,
    aggregated_message_is_last_failure Scenario.aAndBFail 3 Scenario.O Scenario.world
      Scenario.pending rfl (by decide) (Scenario.outcomes_keepsObservers _ _) (by decide)
      (by decide) (Scenario.outcomes_keepsPending _) (by decide)⟩

/-- The locals after a pass whose failures carry no text: `errMsg` is still
the empty string. -/
theorem lastText_of_no_text (calls : List Call)
    (h : ∀ f ∈ failures calls, f.what = none) : lastText calls = "" := by
  have h1 : calls.filterMap (fun c => c.2.bind Thrown.what) =
      (failures calls).filterMap Thrown.what := by
    simp [failures, List.filterMap_filterMap]
  have h2 : (failures calls).filterMap Thrown.what = [] :=
    List.filterMap_eq_nil_iff.mpr h
  simp [lastText, h1, h2]

/-- C11, refuted as stated.  Single-threaded configuration, updates enabled,
`A`, `B`, `C` attached to `O`, and `A` alone failing, with an exception that
is not a `std::exception`: the call raises the aggregated failure, whose
message is "could not notify one or more observers: " and does not carry the
text "unspecified failure". -/
theorem unknown_failure_message_lacks_unspecified_failure :
    ∃ r, SingleThreaded.notifyObservers Scenario.onlyAUnknown 3 Scenario.O Scenario.world =
        some r ∧
      failures r.calls = [.unknown] ∧
      ∃ message, r.outcome = .threw (.Error message) ∧
        message = "could not notify one or more observers: " ∧
        carriesText message "unspecified failure" = false :=
  ⟨_, rfl, by decide, _, rfl, by decide, by decide⟩

/-- C11, amended.  Single-threaded configuration: when a dispatch pass of
`Observable::notifyObservers` has failures and none of them carries a text,
the call still raises the aggregated `QuantLib::Error`, and its message is
exactly "could not notify one or more observers: ", with no failure text
after it. -/
theorem unknown_failures_raise_bare_message (update : Update) (fuel self : Nat) (w : World)
    (henabled : w.settings_.updatesEnabled_ = true)
    (hnodup : (w.observables self).observers_.Nodup)
    (hkeep : KeepsObservers update self)
    (hfuel : (w.observables self).observers_.length ≤ fuel) :
    ∃ r, SingleThreaded.notifyObservers update fuel self w = some r ∧
      (failures r.calls ≠ [] → (∀ f ∈ failures r.calls, f.what = none) →
        r.outcome = .threw (.Error "could not notify one or more observers: ")) := by
  obtain ⟨r, hr, _, hout⟩ :=
    SingleThreaded.notifyObservers_enabled_run update fuel self w henabled hnodup hkeep hfuel
  refine ⟨r, hr, fun hne hnone => ?_⟩
  have hemp : (failures r.calls).isEmpty = false := by
    cases hf : failures r.calls with
    | nil => exact absurd hf hne
    | cons _ _ => rfl
  rw [hout, hemp, lastText_of_no_text r.calls hnone]
  rfl

/-- Witness of the amended C11: `A`, `B`, `C` attached to `O`, `A` failing
with an exception that is not a `std::exception`. -/
theorem unknown_failures_raise_bare_message_witness :
    (Scenario.world.settings_.updatesEnabled_ = true ∧
      (Scenario.world.observables Scenario.O).observers_.Nodup ∧
      KeepsObservers Scenario.onlyAUnknown Scenario.O ∧
      (Scenario.world.observables Scenario.O).observers_.length ≤ 3) ∧
    ∃ r, SingleThreaded.notifyObservers Scenario.onlyAUnknown 3 Scenario.O Scenario.world =
        some r ∧
      (failures r.calls ≠ [] → (∀ f ∈ failures r.calls, f.what = none) →
        r.outcome = .threw (.Error "could not notify one or more observers: ")) :=
  ⟨⟨rfl, by decide, Scenario.outcomes_keepsObservers _ _, by decide⟩,
    unknown_failures_raise_bare_message Scenario.onlyAUnknown 3 Scenario.O Scenario.world rfl
      (by decide) (Scenario.outcomes_keepsObservers _ _) (by decide)⟩

/-! ## Notification with updates disabled -/

/-- C12. Single-threaded configuration: while updates are disabled and not
deferred, `Observable::notifyObservers` calls no `update()`, returns, and
leaves the settings, the pending set included, as they were, so that a later
`enableUpdates` runs as if the call had not been made, and replays nothing if
nothing was pending. -/
theorem notifyObservers_not_deferred_records_nothing (update : Update) (fuel self : Nat)
    (w : World)
    (hdisabled : w.settings_.updatesEnabled_ = false)
    (hnot : w.settings_.updatesDeferred_ = false) :
    ∃ r, SingleThreaded.notifyObservers update fuel self w = some r ∧
      r.calls = [] ∧ r.outcome = .returned ∧
      r.world.settings_.deferredObservers_ = w.settings_.deferredObservers_ ∧
      (∀ fuel2, SingleThreaded.enableUpdates update fuel2 r.world =
        SingleThreaded.enableUpdates update fuel2 w) ∧
      (w.settings_.deferredObservers_ = [] →
        ∀ fuel2, ∃ r2, SingleThreaded.enableUpdates update fuel2 r.world = some r2 ∧
          r2.calls = []) := by
  have hrun : SingleThreaded.notifyObservers update fuel self w =
      some { outcome := .returned, world := w, calls := [] } := by
    simp [SingleThreaded.notifyObservers, hdisabled,
      ObservableSettings.registerDeferredObservers, hnot, World.withSettings]
  refine ⟨_, hrun, rfl, rfl, rfl, fun _ => rfl, fun hnil fuel2 => ?_⟩
  simp [SingleThreaded.enableUpdates, World.withSettings, hnil]

/-- Witness of C12: the scenario after `disableUpdates(false)`. -/
theorem notifyObservers_not_deferred_records_nothing_witness :
    ((Scenario.disabled false).settings_.updatesEnabled_ = false ∧
      (Scenario.disabled false).settings_.updatesDeferred_ = false) ∧
    ∃ r, SingleThreaded.notifyObservers Scenario.aAndBFail 3 Scenario.O
        (Scenario.disabled false) = some r ∧
      r.calls = [] ∧ r.outcome = .returned ∧
      r.world.settings_.deferredObservers_ =
        (Scenario.disabled false).settings_.deferredObservers_ ∧
      (∀ fuel2, SingleThreaded.enableUpdates Scenario.aAndBFail fuel2 r.world =
        SingleThreaded.enableUpdates Scenario.aAndBFail fuel2 (Scenario.disabled false)) ∧
      ((Scenario.disabled false).settings_.deferredObservers_ = [] →
        ∀ fuel2, ∃ r2, SingleThreaded.enableUpdates Scenario.aAndBFail fuel2 r.world =
          some r2 ∧ r2.calls = []) :=
  ⟨⟨rfl, rfl⟩,
    notifyObservers_not_deferred_records_nothing Scenario.aAndBFail 3 Scenario.O
      (Scenario.disabled false) rfl rfl⟩

/-- C13. Thread-safe configuration: when updates are disabled (at the
unlocked read and under the settings lock), `Observable::notifyObservers`
calls no `update()` and returns; if updates are not deferred it leaves the
settings, the pending set included, as it found them under the lock, so that
the pending set changes only when `updatesDeferred` is true. -/
theorem threadSafe_notifyObservers_records_only_when_deferred (update : Update)
    (others : World → World) (self : Nat) (w : World)
    (hdisabled : w.settings_.updatesEnabled_ = false)
    (hlocked : (others w).settings_.updatesEnabled_ = false) :
    (ThreadSafe.notifyObservers update others self w).calls = [] ∧
    (ThreadSafe.notifyObservers update others self w).outcome = .returned ∧
    ((others w).settings_.updatesDeferred_ = false →
      (ThreadSafe.notifyObservers update others self w).world.settings_ =
        (others w).settings_) ∧
    ((ThreadSafe.notifyObservers update others self w).world.settings_.deferredObservers_ ≠
        (others w).settings_.deferredObservers_ →
      (others w).settings_.updatesDeferred_ = true) := by
  cases hdef : (others w).settings_.updatesDeferred_ with
  | false =>
    have hrun : ThreadSafe.notifyObservers update others self w =
        { outcome := .returned, world := others w, calls := [] } := by
      simp [ThreadSafe.notifyObservers, hdisabled, hlocked, hdef]
    rw [hrun]
    exact ⟨rfl, rfl, fun _ => rfl, fun h => absurd rfl h⟩
  | true =>
    have hrun : ThreadSafe.notifyObservers update others self w =
        { outcome := .returned,
          world := (others w).withSettings
            ((others w).settings_.registerDeferredObservers
              ((others w).observables self).observers_),
          calls := [] } := by
      simp [ThreadSafe.notifyObservers, hdisabled, hlocked, hdef]
    rw [hrun]
    exact ⟨rfl, rfl, fun h => absurd h (by simp), fun _ => rfl⟩

/-- Witness of C13: the scenario after `disableUpdates(false)`, sequential
run. -/
theorem threadSafe_notifyObservers_records_only_when_deferred_witness :
    ((Scenario.disabled false).settings_.updatesEnabled_ = false ∧
      (id (Scenario.disabled false)).settings_.updatesEnabled_ = false) ∧
    (ThreadSafe.notifyObservers Scenario.aAndBFail id Scenario.O
      (Scenario.disabled false)).calls = [] ∧
    (ThreadSafe.notifyObservers Scenario.aAndBFail id Scenario.O
      (Scenario.disabled false)).outcome = .returned ∧
    ((id (Scenario.disabled false)).settings_.updatesDeferred_ = false →
      (ThreadSafe.notifyObservers Scenario.aAndBFail id Scenario.O
        (Scenario.disabled false)).world.settings_ = (id (Scenario.disabled false)).settings_) ∧
    ((ThreadSafe.notifyObservers Scenario.aAndBFail id Scenario.O
        (Scenario.disabled false)).world.settings_.deferredObservers_ ≠
        (id (Scenario.disabled false)).settings_.deferredObservers_ →
      (id (Scenario.disabled false)).settings_.updatesDeferred_ = true) :=
  ⟨⟨rfl, rfl⟩,
    threadSafe_notifyObservers_records_only_when_deferred Scenario.aAndBFail id Scenario.O
      (Scenario.disabled false) rfl rfl⟩

/-! ## Attaching and detaching -/

theorem set_type.mem_insert (s : set_type) (x y : Observer) :
    y ∈ set_type.insert s x ↔ y = x ∨ y ∈ s := by
  unfold set_type.insert
  split
  · constructor
    · exact fun h => Or.inr h
    · rintro (rfl | h)
      · assumption
      · exact h
  · simp [or_comm]

theorem set_type.mem_erase (s : set_type) (x y : Observer) :
    y ∈ set_type.erase s x ↔ y ∈ s ∧ y ≠ x := by
  simp [set_type.erase]

theorem set_type.erase_of_not_mem (s : set_type) (x : Observer) (h : x ∉ s) :
    set_type.erase s x = s := by
  unfold set_type.erase
  rw [List.filter_eq_self]
  intro a ha
  have : a ≠ x := fun e => h (e ▸ ha)
  simpa using this

theorem set_type.insert_nodup (s : set_type) (x : Observer) (h : s.Nodup) :
    (set_type.insert s x).Nodup := by
  unfold set_type.insert
  split
  · exact h
  · rename_i hx
    exact List.Nodup.append h (List.nodup_singleton x) (by simpa using hx)

theorem set_type.insertRange_nodup (range : List Observer) :
    ∀ s : set_type, s.Nodup → (set_type.insertRange s range).Nodup := by
  induction range with
  | nil => exact fun s h => h
  | cons x xs ih =>
    intro s h
    exact ih (set_type.insert s x) (set_type.insert_nodup s x h)

theorem set_type.erase_nodup (s : set_type) (x : Observer) (h : s.Nodup) :
    (set_type.erase s x).Nodup :=
  List.Nodup.filter _ h

theorem World.withObservers_same (w : World) (self : Nat) (s : set_type) :
    ((w.withObservers self s).observables self).observers_ = s := by
  simp [World.withObservers]

theorem World.withObservers_other (w : World) (self other : Nat) (s : set_type)
    (h : other ≠ self) :
    (w.withObservers self s).observables other = w.observables other := by
  simp [World.withObservers, Function.update_noteq h]

/-- C14, refuted as stated.  Single-threaded configuration: `O`, with `A`,
`B`, `C` attached, calls `notifyObservers` under deferral; then the observer
`4` is attached to `O`; `enableUpdates` then calls `update()` on `A`, `B` and
`C` and not on `4`, although `4` is attached to `O` at that time. -/
theorem replay_misses_observer_attached_after_deferral :
    ∃ r1 r2,
      SingleThreaded.notifyObservers Scenario.allSucceed 0 Scenario.O
        (Scenario.disabled true) = some r1 ∧
      4 ∈ ((SingleThreaded.registerObserver Scenario.O 4 r1.world).observables
        Scenario.O).observers_ ∧
      SingleThreaded.enableUpdates Scenario.allSucceed 4
        (SingleThreaded.registerObserver Scenario.O 4 r1.world) = some r2 ∧
      r2.updated = [1, 2, 3] ∧ r2.updated.count 4 = 0 :=
  ⟨_, _, rfl, by decide, rfl, by decide, by decide⟩

/-- C14, amended.  Single-threaded configuration: the replay of
`enableUpdates` notifies the observers that were put in the pending set when
the Observable called `notifyObservers` under deferral.  From an empty
pending set, an observer `x` attached to the Observable only after that call,
and attached at `enableUpdates`, receives no `update()` from the replay; each
observer attached at the time of the call receives exactly one. -/
theorem replay_notifies_observers_recorded_at_deferral (update : Update)
    (fuel self : Nat) (x : Observer) (w : World)
    (hempty : w.settings_.deferredObservers_ = [])
    (hnodup : (w.observables self).observers_.Nodup)
    (hx : x ∉ (w.observables self).observers_)
    (hkeep : KeepsPending update)
    (hfuel : (w.observables self).observers_.length ≤ fuel) :
    ∃ r1 r2,
      SingleThreaded.notifyObservers update fuel self
        (w.withSettings (w.settings_.disableUpdates true)) = some r1 ∧
      r1.calls = [] ∧
      x ∈ ((SingleThreaded.registerObserver self x r1.world).observables self).observers_ ∧
      SingleThreaded.enableUpdates update fuel
        (SingleThreaded.registerObserver self x r1.world) = some r2 ∧
      r2.updated.count x = 0 ∧
      ∀ o ∈ (w.observables self).observers_, r2.updated.count o = 1 := by
  let w0 := w.withSettings (w.settings_.disableUpdates true)
  have hfirst := SingleThreaded.notifyObservers_deferred update fuel self w0 rfl rfl
  have hpend : w0.settings_.deferredObservers_.insertRange (w0.observables self).observers_ =
      (w.observables self).observers_ := by
    show set_type.insertRange w.settings_.deferredObservers_ _ = _
    rw [hempty]
    exact set_type.insertRange_nil _ hnodup
  rw [hpend] at hfirst
  obtain ⟨r2, hr2, hupd, _⟩ := SingleThreaded.enableUpdates_run update fuel
    (SingleThreaded.registerObserver self x
      (w0.withSettings { w0.settings_ with
        deferredObservers_ := (w.observables self).observers_ }))
    hnodup hkeep hfuel
  have hupd2 : r2.updated = (w.observables self).observers_ := hupd
  refine ⟨_, r2, hfirst, rfl, ?_, hr2, ?_, fun o ho => ?_⟩
  · simp only [SingleThreaded.registerObserver]
    rw [World.withObservers_same, set_type.mem_insert]
    exact Or.inl rfl
  · rw [hupd2]
    exact List.count_eq_zero_of_not_mem hx
  · rw [hupd2]
    exact List.count_eq_one_of_mem hnodup ho

/-- Witness of the amended C14: `A`, `B`, `C` attached to `O` at the time of
the deferred notification, `4` attached afterwards. -/
theorem replay_notifies_observers_recorded_at_deferral_witness :
    (Scenario.world.settings_.deferredObservers_ = [] ∧
      (Scenario.world.observables Scenario.O).observers_.Nodup ∧
      4 ∉ (Scenario.world.observables Scenario.O).observers_ ∧
      KeepsPending Scenario.allSucceed ∧
      (Scenario.world.observables Scenario.O).observers_.length ≤ 3) ∧
    ∃ r1 r2,
      SingleThreaded.notifyObservers Scenario.allSucceed 3 Scenario.O
        (Scenario.world.withSettings (Scenario.world.settings_.disableUpdates true)) =
          some r1 ∧
      r1.calls = [] ∧
      4 ∈ ((SingleThreaded.registerObserver Scenario.O 4 r1.world).observables
        Scenario.O).observers_ ∧
      SingleThreaded.enableUpdates Scenario.allSucceed 3
        (SingleThreaded.registerObserver Scenario.O 4 r1.world) = some r2 ∧
      r2.updated.count 4 = 0 ∧
      ∀ o ∈ (Scenario.world.observables Scenario.O).observers_, r2.updated.count o = 1 :=
  ⟨⟨rfl, by decide, by decide, Scenario.outcomes_keepsPending _, by decide⟩,
    replay_notifies_observers_recorded_at_deferral Scenario.allSucceed 3 Scenario.O 4
      Scenario.world rfl (by decide) (by decide) (Scenario.outcomes_keepsPending _)
      (by decide)⟩

/-- The observer set that `unregisterObserver` leaves, when other threads
leave it alone. -/
theorem ThreadSafe.unregisterObserver_observers (others : World → World) (self : Nat)
    (x : Observer) (w : World)
    (hothers : ∀ v, ((others v).observables self).observers_ = (v.observables self).observers_) :
    ((ThreadSafe.unregisterObserver others self x w).observables self).observers_ =
      (w.observables self).observers_.erase x := by
  unfold ThreadSafe.unregisterObserver
  simp only []
  split
  · split
    · show ((others _).observables self).observers_ = _
      rw [hothers, World.withObservers_same]
    · rw [hothers, World.withObservers_same]
  · rw [World.withObservers_same]

/-- The settings that `unregisterObserver` leaves when updates are deferred at
both reads. -/
theorem ThreadSafe.unregisterObserver_deferred (others : World → World) (self : Nat)
    (x : Observer) (w : World)
    (hdeferred : w.settings_.updatesDeferred_ = true)
    (hlocked : (others (w.withObservers self
      ((w.observables self).observers_.erase x))).settings_.updatesDeferred_ = true) :
    ThreadSafe.unregisterObserver others self x w =
      (others (w.withObservers self ((w.observables self).observers_.erase x))).withSettings
        ((others (w.withObservers self
          ((w.observables self).observers_.erase x))).settings_.unregisterDeferredObserver x) := by
  unfold ThreadSafe.unregisterObserver
  simp only []
  rw [if_pos (show (w.withObservers self
    ((w.observables self).observers_.erase x)).settings_.updatesDeferred_ = true from hdeferred),
    if_pos hlocked]

/-- C15. Thread-safe configuration: after `Observable::unregisterObserver(x)`
on an Observable (whose observer set other threads leave alone), `x` is not
in its observer set and the membership of every other observer is unchanged;
and when updates are deferred (at the unlocked read and under the settings
lock), `x` is no longer in the pending set, so that the replay of
`enableUpdates` makes no `update()` call on `x`. -/
theorem threadSafe_unregisterObserver_detaches (update : Update) (others : World → World)
    (fuel self : Nat) (x : Observer) (w : World)
    (hothers : ∀ v, ((others v).observables self).observers_ = (v.observables self).observers_) :
    x ∉ ((ThreadSafe.unregisterObserver others self x w).observables self).observers_ ∧
    (∀ y, y ≠ x →
      (y ∈ ((ThreadSafe.unregisterObserver others self x w).observables self).observers_ ↔
        y ∈ (w.observables self).observers_)) ∧
    (w.settings_.updatesDeferred_ = true →
      (others (w.withObservers self
        ((w.observables self).observers_.erase x))).settings_.updatesDeferred_ = true →
      x ∉ (ThreadSafe.unregisterObserver others self x w).settings_.deferredObservers_ ∧
      ((ThreadSafe.unregisterObserver others self x w).settings_.deferredObservers_.Nodup →
        KeepsPending update →
        (ThreadSafe.unregisterObserver others self x w).settings_.deferredObservers_.length
          ≤ fuel →
        ∃ r, ThreadSafe.enableUpdates update fuel
            (ThreadSafe.unregisterObserver others self x w) = some r ∧
          r.updated.count x = 0)) := by
  have hset := ThreadSafe.unregisterObserver_observers others self x w hothers
  refine ⟨?_, fun y hy => ?_, fun hdeferred hlocked => ?_⟩
  · rw [hset, set_type.mem_erase]
    exact fun h => h.2 rfl
  · rw [hset, set_type.mem_erase]
    exact ⟨fun h => h.1, fun h => ⟨h, hy⟩⟩
  · have hx : x ∉ (ThreadSafe.unregisterObserver others self x w).settings_.deferredObservers_ := by
      rw [ThreadSafe.unregisterObserver_deferred others self x w hdeferred hlocked]
      show x ∉ set_type.erase _ x
      rw [set_type.mem_erase]
      exact fun h => h.2 rfl
    refine ⟨hx, fun hnodup hkeep hfuel => ?_⟩
    obtain ⟨r, hr, hupd, _⟩ := SingleThreaded.enableUpdates_run update fuel
      (ThreadSafe.unregisterObserver others self x w) hnodup hkeep hfuel
    refine ⟨r, hr, ?_⟩
    rw [hupd]
    exact List.count_eq_zero_of_not_mem hx

/-- Witness of C15: `A` detached from `O` while `A`, `B`, `C` are pending,
sequential run. -/
theorem threadSafe_unregisterObserver_detaches_witness :
    ((ThreadSafe.unregisterObserver id Scenario.O 1 Scenario.pending).observables
        Scenario.O).observers_ = [2, 3] ∧
    (ThreadSafe.unregisterObserver id Scenario.O 1
        Scenario.pending).settings_.deferredObservers_ = [2, 3] ∧
    (∀ v : World, ((id v).observables Scenario.O).observers_ =
      (v.observables Scenario.O).observers_) ∧
    1 ∉ ((ThreadSafe.unregisterObserver id Scenario.O 1 Scenario.pending).observables
        Scenario.O).observers_ ∧
    (∀ y, y ≠ 1 →
      (y ∈ ((ThreadSafe.unregisterObserver id Scenario.O 1 Scenario.pending).observables
          Scenario.O).observers_ ↔
        y ∈ (Scenario.pending.observables Scenario.O).observers_)) ∧
    1 ∉ (ThreadSafe.unregisterObserver id Scenario.O 1
        Scenario.pending).settings_.deferredObservers_ ∧
    ∃ r, ThreadSafe.enableUpdates Scenario.allSucceed 2
        (ThreadSafe.unregisterObserver id Scenario.O 1 Scenario.pending) = some r ∧
      r.updated.count 1 = 0 :=
  ⟨by decide, by decide, fun _ => rfl,
    (threadSafe_unregisterObserver_detaches Scenario.allSucceed id 2 Scenario.O 1
      Scenario.pending (fun _ => rfl)).1,
    (threadSafe_unregisterObserver_detaches Scenario.allSucceed id 2 Scenario.O 1
      Scenario.pending (fun _ => rfl)).2.1,
    ((threadSafe_unregisterObserver_detaches Scenario.allSucceed id 2 Scenario.O 1
      Scenario.pending (fun _ => rfl)).2.2 rfl rfl).1,
    ((threadSafe_unregisterObserver_detaches Scenario.allSucceed id 2 Scenario.O 1
      Scenario.pending (fun _ => rfl)).2.2 rfl rfl).2 (by decide)
      (Scenario.outcomes_keepsPending _) (by decide)⟩

/-- Thread-safe configuration, sequential run: while updates are disabled and
deferred, `notifyObservers` returns after adding the observer set to the
pending set. -/
theorem ThreadSafe.notifyObservers_deferred_sequential (update : Update) (self : Nat) (w : World)
    (hdisabled : w.settings_.updatesEnabled_ = false)
    (hdeferred : w.settings_.updatesDeferred_ = true) :
    ThreadSafe.notifyObservers update id self w =
      { outcome := .returned,
        world := w.withSettings { w.settings_ with
          deferredObservers_ :=
            w.settings_.deferredObservers_.insertRange (w.observables self).observers_ },
        calls := [] } := by
  simp [ThreadSafe.notifyObservers, hdisabled, hdeferred,
    ObservableSettings.registerDeferredObservers]

/-- The state after two deferred notifications and a detachment. -/
theorem ThreadSafe.notifyBothThenDetach_deferred (update : Update) (o1 o2 : Nat)
    (x : Observer) (w : World)
    (hdisabled : w.settings_.updatesEnabled_ = false)
    (hdeferred : w.settings_.updatesDeferred_ = true) :
    (ThreadSafe.notifyBothThenDetach update o1 o2 x w).settings_.deferredObservers_ =
      set_type.erase (set_type.insertRange
        (set_type.insertRange w.settings_.deferredObservers_ (w.observables o1).observers_)
        (w.observables o2).observers_) x ∧
    (ThreadSafe.notifyBothThenDetach update o1 o2 x w).observables =
      (w.withObservers o1 ((w.observables o1).observers_.erase x)).observables := by
  have h1 := ThreadSafe.notifyObservers_deferred_sequential update o1 w hdisabled hdeferred
  have h2 := ThreadSafe.notifyObservers_deferred_sequential update o2
    (w.withSettings { w.settings_ with
      deferredObservers_ :=
        w.settings_.deferredObservers_.insertRange (w.observables o1).observers_ })
    hdisabled hdeferred
  have key : ∀ v : World, v.settings_.updatesDeferred_ = true →
      (ThreadSafe.unregisterObserver id o1 x v).settings_.deferredObservers_ =
        set_type.erase v.settings_.deferredObservers_ x ∧
      (ThreadSafe.unregisterObserver id o1 x v).observables =
        (v.withObservers o1 ((v.observables o1).observers_.erase x)).observables := by
    intro v hv
    rw [ThreadSafe.unregisterObserver_deferred id o1 x v hv hv]
    exact ⟨rfl, rfl⟩
  unfold ThreadSafe.notifyBothThenDetach
  rw [h1]
  dsimp only
  rw [h2]
  dsimp only
  refine key _ ?_
  exact hdeferred

/-- C16, refuted as stated.  Thread-safe configuration, sequential run,
updates disabled and deferred: `A` is attached to `O` (with `B` and `C`) and
to `O2`; `O` and `O2` call `notifyObservers`; `A` is detached from `O` only.
`A` is then still attached to `O2`, but the pending set is `B`, `C`, and
`enableUpdates` calls `update()` on `B` and `C` and not on `A`. -/
theorem detach_from_one_observable_loses_replay_of_other :
    (Scenario.shared.observables Scenario.O).observers_ = [1, 2, 3] ∧
    (Scenario.shared.observables Scenario.O2).observers_ = [1] ∧
    ((ThreadSafe.notifyBothThenDetach Scenario.allSucceed Scenario.O Scenario.O2 1
      Scenario.shared).observables Scenario.O2).observers_ = [1] ∧
    (ThreadSafe.notifyBothThenDetach Scenario.allSucceed Scenario.O Scenario.O2 1
      Scenario.shared).settings_.deferredObservers_ = [2, 3] ∧
    ∃ r, ThreadSafe.enableUpdates Scenario.allSucceed 3
        (ThreadSafe.notifyBothThenDetach Scenario.allSucceed Scenario.O Scenario.O2 1
          Scenario.shared) = some r ∧
      r.outcome = .returned ∧ r.updated = [2, 3] ∧ r.updated.count 1 = 0 :=
  ⟨by decide, by decide, by decide, by decide, _, rfl, by decide, by decide, by decide⟩

/-- C16, amended.  Thread-safe configuration, sequential run, updates disabled
and deferred: the purge done by `Observable::unregisterObserver` removes the
observer from the pending set whichever Observable put it there.  If `x` is
attached to the Observable at `o2`, the Observables at `o1` and `o2` call
`notifyObservers`, and `x` is then detached from the one at `o1` only, `x` is
still attached to the one at `o2`, is not pending, and receives no `update()`
from the replay of `enableUpdates`. -/
theorem detach_purges_observer_whatever_observable (update : Update)
    (fuel o1 o2 : Nat) (x : Observer) (w : World)
    (hdisabled : w.settings_.updatesEnabled_ = false)
    (hdeferred : w.settings_.updatesDeferred_ = true)
    (hne : o2 ≠ o1)
    (hx : x ∈ (w.observables o2).observers_)
    (hnodup : w.settings_.deferredObservers_.Nodup)
    (hkeep : KeepsPending update)
    (hfuel : (ThreadSafe.notifyBothThenDetach update o1 o2 x w).settings_.deferredObservers_.length
      ≤ fuel) :
    x ∈ ((ThreadSafe.notifyBothThenDetach update o1 o2 x w).observables o2).observers_ ∧
    x ∉ (ThreadSafe.notifyBothThenDetach update o1 o2 x w).settings_.deferredObservers_ ∧
    ∃ r, ThreadSafe.enableUpdates update fuel
        (ThreadSafe.notifyBothThenDetach update o1 o2 x w) = some r ∧
      r.updated.count x = 0 := by
  obtain ⟨hpend, hobs⟩ :=
    ThreadSafe.notifyBothThenDetach_deferred update o1 o2 x w hdisabled hdeferred
  have hx2 : x ∉ (ThreadSafe.notifyBothThenDetach update o1 o2 x w).settings_.deferredObservers_ := by
    rw [hpend, set_type.mem_erase]
    exact fun h => h.2 rfl
  have hnd : (ThreadSafe.notifyBothThenDetach update o1 o2 x w).settings_.deferredObservers_.Nodup := by
    rw [hpend]
    exact set_type.erase_nodup _ _
      (set_type.insertRange_nodup _ _ (set_type.insertRange_nodup _ _ hnodup))
  refine ⟨?_, hx2, ?_⟩
  · rw [hobs, World.withObservers_other w o1 o2 _ hne]
    exact hx
  · obtain ⟨r, hr, hupd, _⟩ := SingleThreaded.enableUpdates_run update fuel
      (ThreadSafe.notifyBothThenDetach update o1 o2 x w) hnd hkeep hfuel
    refine ⟨r, hr, ?_⟩
    rw [hupd]
    exact List.count_eq_zero_of_not_mem hx2

/-- Witness of the amended C16: `A` attached to `O` and `O2`, detached from
`O`. -/
theorem detach_purges_observer_whatever_observable_witness :
    (Scenario.shared.settings_.updatesEnabled_ = false ∧
      Scenario.shared.settings_.updatesDeferred_ = true ∧
      Scenario.O2 ≠ Scenario.O ∧
      1 ∈ (Scenario.shared.observables Scenario.O2).observers_ ∧
      Scenario.shared.settings_.deferredObservers_.Nodup ∧
      KeepsPending Scenario.allSucceed ∧
      (ThreadSafe.notifyBothThenDetach Scenario.allSucceed Scenario.O Scenario.O2 1
        Scenario.shared).settings_.deferredObservers_.length ≤ 2) ∧
    1 ∈ ((ThreadSafe.notifyBothThenDetach Scenario.allSucceed Scenario.O Scenario.O2 1
      Scenario.shared).observables Scenario.O2).observers_ ∧
    1 ∉ (ThreadSafe.notifyBothThenDetach Scenario.allSucceed Scenario.O Scenario.O2 1
      Scenario.shared).settings_.deferredObservers_ ∧
    ∃ r, ThreadSafe.enableUpdates Scenario.allSucceed 2
        (ThreadSafe.notifyBothThenDetach Scenario.allSucceed Scenario.O Scenario.O2 1
          Scenario.shared) = some r ∧
      r.updated.count 1 = 0 :=
  ⟨⟨rfl, rfl, by decide, by decide, by decide, Scenario.outcomes_keepsPending _, by decide⟩,
    detach_purges_observer_whatever_observable Scenario.allSucceed 2 Scenario.O Scenario.O2 1
      Scenario.shared rfl rfl (by decide) (by decide) (by decide)
      (Scenario.outcomes_keepsPending _) (by decide)⟩

/-- C17. Thread-safe configuration: `Observable::registerObserver(x)` leaves
the observer set with the previous members and `x`, without duplicates; when
`x` is already a member the set is the same as before; registering `x` twice
leaves the same set, of the same size, as registering it once; the settings
and the other Observables are untouched. -/
theorem threadSafe_registerObserver_adds_once (self : Nat) (x : Observer) (w : World) :
    (∀ y, y ∈ ((ThreadSafe.registerObserver self x w).observables self).observers_ ↔
      y = x ∨ y ∈ (w.observables self).observers_) ∧
    ((w.observables self).observers_.Nodup →
      ((ThreadSafe.registerObserver self x w).observables self).observers_.Nodup) ∧
    (x ∈ (w.observables self).observers_ →
      ((ThreadSafe.registerObserver self x w).observables self).observers_ =
        (w.observables self).observers_) ∧
    ((ThreadSafe.registerObserver self x
        (ThreadSafe.registerObserver self x w)).observables self).observers_ =
      ((ThreadSafe.registerObserver self x w).observables self).observers_ ∧
    ((ThreadSafe.registerObserver self x
        (ThreadSafe.registerObserver self x w)).observables self).observers_.length =
      ((ThreadSafe.registerObserver self x w).observables self).observers_.length ∧
    (ThreadSafe.registerObserver self x w).settings_ = w.settings_ ∧
    (∀ other, other ≠ self →
      (ThreadSafe.registerObserver self x w).observables other = w.observables other) := by
  have hset : ∀ v : World, ((ThreadSafe.registerObserver self x v).observables self).observers_ =
      set_type.insert (v.observables self).observers_ x := fun v =>
    World.withObservers_same v self _
  have hmem : x ∈ set_type.insert (w.observables self).observers_ x :=
    (set_type.mem_insert _ x x).mpr (Or.inl rfl)
  have htwice : ((ThreadSafe.registerObserver self x
      (ThreadSafe.registerObserver self x w)).observables self).observers_ =
      ((ThreadSafe.registerObserver self x w).observables self).observers_ := by
    rw [hset (ThreadSafe.registerObserver self x w), hset w]
    exact set_type.insert_of_mem _ x hmem
  refine ⟨fun y => ?_, fun hnd => ?_, fun hx => ?_, htwice, by rw [htwice], rfl,
    fun other hne => ?_⟩
  · rw [hset w]
    exact set_type.mem_insert _ x y
  · rw [hset w]
    exact set_type.insert_nodup _ x hnd
  · rw [hset w]
    exact set_type.insert_of_mem _ x hx
  · exact World.withObservers_other w self other _ hne

/-- Witness of C17: `B`, already attached to `O`, and a new observer `4`. -/
theorem threadSafe_registerObserver_adds_once_witness :
    ((ThreadSafe.registerObserver Scenario.O 4 Scenario.world).observables
      Scenario.O).observers_ = [1, 2, 3, 4] ∧
    ((ThreadSafe.registerObserver Scenario.O 4
      (ThreadSafe.registerObserver Scenario.O 4 Scenario.world)).observables
      Scenario.O).observers_ = [1, 2, 3, 4] ∧
    (Scenario.world.observables Scenario.O).observers_.Nodup ∧
    2 ∈ (Scenario.world.observables Scenario.O).observers_ ∧
    ((ThreadSafe.registerObserver Scenario.O 2 Scenario.world).observables
      Scenario.O).observers_.Nodup ∧
    ((ThreadSafe.registerObserver Scenario.O 2 Scenario.world).observables
      Scenario.O).observers_ = (Scenario.world.observables Scenario.O).observers_ :=
  ⟨by decide, by decide, by decide, by decide,
    (threadSafe_registerObserver_adds_once Scenario.O 2 Scenario.world).2.1 (by decide),
    (threadSafe_registerObserver_adds_once Scenario.O 2 Scenario.world).2.2.1 (by decide)⟩

/-- C18, refuted as stated.  Thread-safe configuration, sequential run,
updates disabled and deferred with `A`, `B`, `C` pending: `A` is not in the
observer set of the Observable at address 9, and `unregisterObserver(A)` on
that Observable removes `A` from the pending set. -/
theorem unregister_absent_observer_changes_pending :
    1 ∉ (Scenario.pending.observables 9).observers_ ∧
    Scenario.pending.settings_.deferredObservers_ = [1, 2, 3] ∧
    (ThreadSafe.unregisterObserver id 9 1 Scenario.pending).settings_.deferredObservers_ =
      [2, 3] ∧
    (ThreadSafe.unregisterObserver id 9 1 Scenario.pending).settings_ ≠
      Scenario.pending.settings_ := by
  decide

/-- C18, amended.  Thread-safe configuration, sequential run:
`Observable::unregisterObserver(x)` on an Observable whose observer set does
not contain `x` leaves the observer sets and the flags unchanged; it leaves
the pending set unchanged when updates are not deferred or `x` is not
pending, and when updates are deferred it removes `x` from the pending set. -/
theorem threadSafe_unregisterObserver_absent (self : Nat) (x : Observer) (w : World)
    (hx : x ∉ (w.observables self).observers_) :
    (ThreadSafe.unregisterObserver id self x w).observables = w.observables ∧
    (ThreadSafe.unregisterObserver id self x w).settings_.updatesEnabled_ =
      w.settings_.updatesEnabled_ ∧
    (ThreadSafe.unregisterObserver id self x w).settings_.updatesDeferred_ =
      w.settings_.updatesDeferred_ ∧
    ((w.settings_.updatesDeferred_ = false ∨ x ∉ w.settings_.deferredObservers_) →
      (ThreadSafe.unregisterObserver id self x w).settings_.deferredObservers_ =
        w.settings_.deferredObservers_) ∧
    (w.settings_.updatesDeferred_ = true →
      (ThreadSafe.unregisterObserver id self x w).settings_.deferredObservers_ =
        set_type.erase w.settings_.deferredObservers_ x) := by
  have hsame : w.withObservers self ((w.observables self).observers_.erase x) = w := by
    rw [set_type.erase_of_not_mem _ x hx]
    simp [World.withObservers]
  cases hdef : w.settings_.updatesDeferred_ with
  | false =>
    have hrun : ThreadSafe.unregisterObserver id self x w = w := by
      unfold ThreadSafe.unregisterObserver
      simp only [hsame, hdef, Bool.false_eq_true, if_false]
    rw [hrun]
    exact ⟨rfl, rfl, hdef, fun _ => rfl, fun h => absurd h (by simp)⟩
  | true =>
    have hrun : ThreadSafe.unregisterObserver id self x w =
        w.withSettings (w.settings_.unregisterDeferredObserver x) := by
      unfold ThreadSafe.unregisterObserver
      simp only [hsame, hdef, if_true, id]
    rw [hrun]
    refine ⟨rfl, rfl, hdef, fun h => ?_, fun _ => rfl⟩
    cases h with
    | inl h => simp [hdef] at h
    | inr h => exact set_type.erase_of_not_mem _ x h

/-- Witness of the amended C18: `A` and the Observable at address 9, which
has no observer, while `A`, `B`, `C` are pending. -/
theorem threadSafe_unregisterObserver_absent_witness :
    1 ∉ (Scenario.pending.observables 9).observers_ ∧
    (ThreadSafe.unregisterObserver id 9 1 Scenario.pending).observables =
      Scenario.pending.observables ∧
    (ThreadSafe.unregisterObserver id 9 1 Scenario.pending).settings_.updatesEnabled_ =
      Scenario.pending.settings_.updatesEnabled_ ∧
    (ThreadSafe.unregisterObserver id 9 1 Scenario.pending).settings_.updatesDeferred_ =
      Scenario.pending.settings_.updatesDeferred_ ∧
    ((Scenario.pending.settings_.updatesDeferred_ = false ∨
        1 ∉ Scenario.pending.settings_.deferredObservers_) →
      (ThreadSafe.unregisterObserver id 9 1 Scenario.pending).settings_.deferredObservers_ =
        Scenario.pending.settings_.deferredObservers_) ∧
    (Scenario.pending.settings_.updatesDeferred_ = true →
      (ThreadSafe.unregisterObserver id 9 1 Scenario.pending).settings_.deferredObservers_ =
        set_type.erase Scenario.pending.settings_.deferredObservers_ 1) :=
  ⟨by decide, threadSafe_unregisterObserver_absent 9 1 Scenario.pending (by decide)⟩

/-! ## Changes of the observer set during a pass -/

/-- When no `update()` throws, the loop over the copy returns after one call
on every entry of the copy that is not null, in order. -/
theorem ThreadSafe.dispatchCopy_ok (update : Update) (hok : ∀ o v, (update o v).1 = none)
    (copy : List Observer) :
    ∀ (w : World) (calls : List Call),
      (ThreadSafe.dispatchCopy update copy w calls).outcome = .returned ∧
      (ThreadSafe.dispatchCopy update copy w calls).calls.map Prod.fst =
        calls.map Prod.fst ++ copy.filter (fun o => o ≠ 0) := by
  induction copy with
  | nil => intro w calls; simp [ThreadSafe.dispatchCopy]
  | cons o rest ih =>
    intro w calls
    by_cases ho : o = 0
    · simpa [ThreadSafe.dispatchCopy, ho] using ih w calls
    · have := ih (update o w).2 (calls ++ [(o, none)])
      simpa [ThreadSafe.dispatchCopy, ho, hok o w] using this

/-- When no `update()` throws, the loop over the copy keeps every property of
the state that `update()` keeps. -/
theorem ThreadSafe.dispatchCopy_keeps (update : Update) (hok : ∀ o v, (update o v).1 = none)
    (P : World → Prop) (hP : ∀ o v, P v → P (update o v).2) (copy : List Observer) :
    ∀ (w : World) (calls : List Call), P w →
      P (ThreadSafe.dispatchCopy update copy w calls).world := by
  induction copy with
  | nil => intro w calls hw; simpa [ThreadSafe.dispatchCopy] using hw
  | cons o rest ih =>
    intro w calls hw
    by_cases ho : o = 0
    · simpa [ThreadSafe.dispatchCopy, ho] using ih w calls hw
    · have := ih (update o w).2 (calls ++ [(o, none)]) (hP o w hw)
      simpa [ThreadSafe.dispatchCopy, ho, hok o w] using this

/-- When no `update()` throws, a property that the `update()` of `x`
establishes and every `update()` keeps holds after a pass over a copy that
contains `x`. -/
theorem ThreadSafe.dispatchCopy_establishes (update : Update)
    (hok : ∀ o v, (update o v).1 = none) (x : Observer) (hx0 : x ≠ 0)
    (P : World → Prop) (hx : ∀ v, P (update x v).2) (hP : ∀ o v, P v → P (update o v).2)
    (copy : List Observer) :
    ∀ (w : World) (calls : List Call), x ∈ copy →
      P (ThreadSafe.dispatchCopy update copy w calls).world := by
  induction copy with
  | nil => intro w calls h; simp at h
  | cons o rest ih =>
    intro w calls h
    by_cases ho : o = 0
    · have hrest : x ∈ rest := by
        rcases List.mem_cons.mp h with h | h
        · exact absurd (h.trans ho) hx0
        · exact h
      simpa [ThreadSafe.dispatchCopy, ho] using ih w calls hrest
    · by_cases hox : o = x
      · have := ThreadSafe.dispatchCopy_keeps update hok P hP rest (update o w).2
          (calls ++ [(o, none)]) (hox ▸ hx w)
        simpa [ThreadSafe.dispatchCopy, ho, hok o w] using this
      · have hrest : x ∈ rest := by
          rcases List.mem_cons.mp h with h | h
          · exact absurd h.symm hox
          · exact h
        have := ih (update o w).2 (calls ++ [(o, none)]) hrest
        simpa [ThreadSafe.dispatchCopy, ho, hok o w] using this

theorem Scenario.selfDetaching_detaches (x : Observer) (v : World) :
    x ∉ ((Scenario.selfDetaching x v).2.observables Scenario.O).observers_ := by
  show x ∉ ((ThreadSafe.unregisterObserver id Scenario.O x v).observables
    Scenario.O).observers_
  rw [ThreadSafe.unregisterObserver_observers id Scenario.O x v (fun _ => rfl),
    set_type.mem_erase]
  exact fun h => h.2 rfl

theorem Scenario.selfDetaching_stays (x o : Observer) (v : World)
    (h : x ∉ (v.observables Scenario.O).observers_) :
    x ∉ ((Scenario.selfDetaching o v).2.observables Scenario.O).observers_ := by
  show x ∉ ((ThreadSafe.unregisterObserver id Scenario.O o v).observables
    Scenario.O).observers_
  rw [ThreadSafe.unregisterObserver_observers id Scenario.O o v (fun _ => rfl),
    set_type.mem_erase]
  exact fun h2 => h h2.1

/-- C19. Thread-safe configuration: with updates enabled and no `update()`
failing, `Observable::notifyObservers` returns after calling `update()` on
the members (not null) that the observer set had at the start of the pass,
each once, whatever the `update()` calls do to the observer sets; and an
observer `x` whose `update()` detaches it from the Observable, and that no
other `update()` attaches again, is not in the observer set after the pass
and gets no `update()` from the next pass. -/
theorem threadSafe_notifyObservers_dispatches_snapshot (update : Update)
    (others : World → World) (self : Nat) (w : World)
    (henabled : w.settings_.updatesEnabled_ = true)
    (hok : ∀ o v, (update o v).1 = none) :
    (ThreadSafe.notifyObservers update others self w).outcome = .returned ∧
    (ThreadSafe.notifyObservers update others self w).updated =
      (w.observables self).observers_.filter (fun o => o ≠ 0) ∧
    ((w.observables self).observers_.Nodup →
      ∀ o ∈ (w.observables self).observers_, o ≠ 0 →
        (ThreadSafe.notifyObservers update others self w).updated.count o = 1) ∧
    (∀ x, x ∈ (w.observables self).observers_ → x ≠ 0 →
      (∀ v, x ∉ ((update x v).2.observables self).observers_) →
      (∀ o v, o ≠ x → x ∉ (v.observables self).observers_ →
        x ∉ ((update o v).2.observables self).observers_) →
      x ∉ ((ThreadSafe.notifyObservers update others self w).world.observables
        self).observers_ ∧
      ((ThreadSafe.notifyObservers update others self w).world.settings_.updatesEnabled_ =
          true →
        x ∉ (ThreadSafe.notifyObservers update others self
          (ThreadSafe.notifyObservers update others self w).world).updated)) := by
  have hrun : ∀ v : World, v.settings_.updatesEnabled_ = true →
      ThreadSafe.notifyObservers update others self v =
        ThreadSafe.dispatchCopy update (v.observables self).observers_ v [] := by
    intro v hv
    simp [ThreadSafe.notifyObservers, hv]
  have hupd : ∀ v : World, v.settings_.updatesEnabled_ = true →
      (ThreadSafe.notifyObservers update others self v).updated =
        (v.observables self).observers_.filter (fun o => o ≠ 0) := by
    intro v hv
    rw [hrun v hv]
    simpa [Run.updated] using
      (ThreadSafe.dispatchCopy_ok update hok (v.observables self).observers_ v []).2
  refine ⟨?_, hupd w henabled, fun hnodup o ho ho0 => ?_, fun x hx hx0 hdetach hstay => ?_⟩
  · rw [hrun w henabled]
    exact (ThreadSafe.dispatchCopy_ok update hok _ w []).1
  · rw [hupd w henabled]
    exact List.count_eq_one_of_mem (List.Nodup.filter _ hnodup)
      (List.mem_filter.mpr ⟨ho, by simpa using ho0⟩)
  · have hkeep : ∀ o v, x ∉ (v.observables self).observers_ →
        x ∉ ((update o v).2.observables self).observers_ := by
      intro o v hv
      by_cases hox : o = x
      · exact hox ▸ hdetach v
      · exact hstay o v hox hv
    have hgone : x ∉ ((ThreadSafe.notifyObservers update others self w).world.observables
        self).observers_ := by
      rw [hrun w henabled]
      exact ThreadSafe.dispatchCopy_establishes update hok x hx0
        (fun v => x ∉ (v.observables self).observers_) hdetach hkeep _ w [] hx
    refine ⟨hgone, fun hnext => ?_⟩
    rw [hupd _ hnext]
    exact fun h => hgone (List.mem_filter.mp h).1

/-- Witness of C19: `A`, `B`, `C` attached to `O`, each detaching itself from
`O` in its `update()`; the pass notifies all three and leaves `O` without
observer. -/
theorem threadSafe_notifyObservers_dispatches_snapshot_witness :
    (Scenario.world.settings_.updatesEnabled_ = true ∧
      (∀ o v, (Scenario.selfDetaching o v).1 = none) ∧
      (Scenario.world.observables Scenario.O).observers_.Nodup ∧
      1 ∈ (Scenario.world.observables Scenario.O).observers_) ∧
    (ThreadSafe.notifyObservers Scenario.selfDetaching id Scenario.O Scenario.world).updated =
      [1, 2, 3] ∧
    (ThreadSafe.notifyObservers Scenario.selfDetaching id Scenario.O Scenario.world).outcome =
      .returned ∧
    (∀ o ∈ (Scenario.world.observables Scenario.O).observers_, o ≠ 0 →
      (ThreadSafe.notifyObservers Scenario.selfDetaching id Scenario.O
        Scenario.world).updated.count o = 1) ∧
    1 ∉ ((ThreadSafe.notifyObservers Scenario.selfDetaching id Scenario.O
      Scenario.world).world.observables Scenario.O).observers_ ∧
    1 ∉ (ThreadSafe.notifyObservers Scenario.selfDetaching id Scenario.O
      (ThreadSafe.notifyObservers Scenario.selfDetaching id Scenario.O
        Scenario.world).world).updated :=
  ⟨⟨rfl, fun _ _ => rfl, by decide, by decide⟩, by decide,
    (threadSafe_notifyObservers_dispatches_snapshot Scenario.selfDetaching id Scenario.O
      Scenario.world rfl (fun _ _ => rfl)).1,
    (threadSafe_notifyObservers_dispatches_snapshot Scenario.selfDetaching id Scenario.O
      Scenario.world rfl (fun _ _ => rfl)).2.2.1 (by decide),
    ((threadSafe_notifyObservers_dispatches_snapshot Scenario.selfDetaching id Scenario.O
      Scenario.world rfl (fun _ _ => rfl)).2.2.2 1 (by decide) (by decide)
      (Scenario.selfDetaching_detaches 1)
      (fun o v _ h => Scenario.selfDetaching_stays 1 o v h)).1,
    ((threadSafe_notifyObservers_dispatches_snapshot Scenario.selfDetaching id Scenario.O
      Scenario.world rfl (fun _ _ => rfl)).2.2.2 1 (by decide) (by decide)
      (Scenario.selfDetaching_detaches 1)
      (fun o v _ h => Scenario.selfDetaching_stays 1 o v h)).2 (by decide)⟩

/-- C20, evaluated on the code.  Single-threaded configuration, updates
enabled, `A`, `B`, `C` attached to `O`, the `update()` of `A` detaching `C`
from `O`: `Observable::notifyObservers` iterates the observer set itself, so
that the pass in progress calls `update()` on `A` and `B` only and `C`, a
member at the start of the pass, is not notified; the thread-safe
configuration, which copies the set first, notifies all three on the same
input. -/
theorem singleThreaded_notifyObservers_iterates_live_set :
    (Scenario.world.observables Scenario.O).observers_ = [1, 2, 3] ∧
    (SingleThreaded.notifyObservers Scenario.aDetachesC 3 Scenario.O Scenario.world).map
        (fun r => (r.outcome, r.updated)) = some (.returned, [1, 2]) ∧
    (ThreadSafe.notifyObservers Scenario.aDetachesC id Scenario.O Scenario.world).updated =
      [1, 2, 3] := by
  decide

/-! ## Locks held during the calls of `update()` -/

theorem ThreadSafe.heldAtUpdates_updateEvents (held : List ThreadSafe.Mutex)
    (calls : List Call) (rest : List ThreadSafe.Event) :
    ThreadSafe.heldAtUpdates held (calls.map (fun c => ThreadSafe.Event.update c.1) ++ rest) =
      calls.map (fun c => (c.1, held)) ++ ThreadSafe.heldAtUpdates held rest := by
  induction calls with
  | nil => rfl
  | cons c cs ih => simp [ThreadSafe.heldAtUpdates, ih]

/-- The mutexes held at the `update()` calls of a pass that runs between the
construction and the destruction of a `scoped_lock` on `m`. -/
theorem ThreadSafe.heldAtUpdates_scoped (held : List ThreadSafe.Mutex) (m : ThreadSafe.Mutex)
    (r : Run) (rest : List ThreadSafe.Event) :
    ThreadSafe.heldAtUpdates held
        ([ThreadSafe.Event.lock m] ++ ThreadSafe.updateEvents r ++
          ([ThreadSafe.Event.unlock m] ++ rest)) =
      r.calls.map (fun c => (c.1, m :: held)) ++
        ThreadSafe.heldAtUpdates ((m :: held).erase m) rest := by
  have hshape : [ThreadSafe.Event.lock m] ++ ThreadSafe.updateEvents r ++
      ([ThreadSafe.Event.unlock m] ++ rest) =
      ThreadSafe.Event.lock m ::
        (r.calls.map (fun c => ThreadSafe.Event.update c.1) ++
          ThreadSafe.Event.unlock m :: rest) := by
    simp [ThreadSafe.updateEvents]
  rw [hshape]
  simp only [ThreadSafe.heldAtUpdates]
  rw [ThreadSafe.heldAtUpdates_updateEvents]
  simp only [ThreadSafe.heldAtUpdates]

/-- C21, refuted as stated.  Thread-safe configuration, `A`, `B`, `C`
attached to `O`: with updates enabled, `Observable::notifyObservers` calls
each `update()` while it holds the lock of `O`; and when the unlocked read
finds updates disabled and the re-check finds them enabled, it calls each
`update()` while it holds the lock of `O` and the lock of the settings. -/
theorem threadSafe_update_called_with_locks_held :
    ThreadSafe.heldAtUpdates []
        (ThreadSafe.notifyObserversEvents Scenario.allSucceed id Scenario.O Scenario.world) =
      [(1, [.observable Scenario.O]), (2, [.observable Scenario.O]),
        (3, [.observable Scenario.O])] ∧
    ThreadSafe.heldAtUpdates []
        (ThreadSafe.notifyObserversEvents Scenario.allSucceed Scenario.enabledMeanwhile
          Scenario.O (Scenario.disabled true)) =
      [(1, [.observable Scenario.O, .settings]), (2, [.observable Scenario.O, .settings]),
        (3, [.observable Scenario.O, .settings])] := by
  decide

/-- C21, amended.  Thread-safe configuration: the `update()` calls of
`Observable::notifyObservers` are those of the pass over the copy, and every
one of them is made while the calling thread holds the lock of the
Observable; when the unlocked read of `updatesEnabled()` finds updates
disabled, every one of them is made while it holds the lock of the settings
as well. -/
theorem threadSafe_updates_run_with_locks_held (update : Update) (others : World → World)
    (self : Nat) (w : World) :
    (ThreadSafe.heldAtUpdates []
        (ThreadSafe.notifyObserversEvents update others self w)).map Prod.fst =
      (ThreadSafe.notifyObservers update others self w).updated ∧
    (∀ c ∈ ThreadSafe.heldAtUpdates [] (ThreadSafe.notifyObserversEvents update others self w),
      ThreadSafe.Mutex.observable self ∈ c.2) ∧
    (w.settings_.updatesEnabled_ = false →
      ∀ c ∈ ThreadSafe.heldAtUpdates []
          (ThreadSafe.notifyObserversEvents update others self w),
        ThreadSafe.Mutex.settings ∈ c.2) := by
  cases hfast : w.settings_.updatesEnabled_ with
  | true =>
    have hev : ThreadSafe.heldAtUpdates []
        (ThreadSafe.notifyObserversEvents update others self w) =
        (ThreadSafe.dispatchCopy update (w.observables self).observers_ w []).calls.map
          (fun c => (c.1, [ThreadSafe.Mutex.observable self])) := by
      have h := ThreadSafe.heldAtUpdates_scoped [] (.observable self)
        (ThreadSafe.dispatchCopy update (w.observables self).observers_ w []) []
      simp only [ThreadSafe.notifyObserversEvents, hfast, if_true]
      simpa [ThreadSafe.heldAtUpdates] using h
    have hrun : ThreadSafe.notifyObservers update others self w =
        ThreadSafe.dispatchCopy update (w.observables self).observers_ w [] := by
      simp [ThreadSafe.notifyObservers, hfast]
    rw [hev, hrun]
    refine ⟨by simp [Run.updated], fun c hc => ?_, fun h => absurd h (by simp)⟩
    obtain ⟨a, _, rfl⟩ := List.mem_map.mp hc
    simp
  | false =>
    cases hslow : (others w).settings_.updatesEnabled_ with
    | true =>
      have hev : ThreadSafe.heldAtUpdates []
          (ThreadSafe.notifyObserversEvents update others self w) =
          (ThreadSafe.dispatchCopy update ((others w).observables self).observers_
            (others w) []).calls.map
            (fun c => (c.1, [ThreadSafe.Mutex.observable self, ThreadSafe.Mutex.settings])) := by
        have h := ThreadSafe.heldAtUpdates_scoped [.settings] (.observable self)
          (ThreadSafe.dispatchCopy update ((others w).observables self).observers_
            (others w) []) [ThreadSafe.Event.unlock .settings]
        simp only [ThreadSafe.notifyObserversEvents, hfast, hslow, if_true,
          Bool.false_eq_true, if_false, List.singleton_append, List.cons_append,
          ThreadSafe.heldAtUpdates, List.append_assoc]
        simpa [ThreadSafe.heldAtUpdates] using h
      have hrun : ThreadSafe.notifyObservers update others self w =
          ThreadSafe.dispatchCopy update ((others w).observables self).observers_
            (others w) [] := by
        simp [ThreadSafe.notifyObservers, hfast, hslow]
      rw [hev, hrun]
      refine ⟨by simp [Run.updated], fun c hc => ?_, fun _ c hc => ?_⟩
      · obtain ⟨a, _, rfl⟩ := List.mem_map.mp hc
        simp
      · obtain ⟨a, _, rfl⟩ := List.mem_map.mp hc
        simp
    | false =>
      have hev : ThreadSafe.heldAtUpdates []
          (ThreadSafe.notifyObserversEvents update others self w) = [] := by
        simp only [ThreadSafe.notifyObserversEvents, hfast, hslow, Bool.false_eq_true,
          if_false]
        split <;> simp [ThreadSafe.heldAtUpdates]
      have hrun : (ThreadSafe.notifyObservers update others self w).updated = [] := by
        simp only [ThreadSafe.notifyObservers, hfast, hslow, Bool.false_eq_true, if_false]
        split <;> rfl
      rw [hev, hrun]
      exact ⟨rfl, fun c hc => absurd hc (by simp), fun _ c hc => absurd hc (by simp)⟩

/-- Witness of the amended C21: the unlocked read finds updates disabled and
the re-check finds them enabled. -/
theorem threadSafe_updates_run_with_locks_held_witness :
    (Scenario.disabled true).settings_.updatesEnabled_ = false ∧
    (ThreadSafe.notifyObservers Scenario.allSucceed Scenario.enabledMeanwhile Scenario.O
      (Scenario.disabled true)).updated = [1, 2, 3] ∧
    (∀ c ∈ ThreadSafe.heldAtUpdates []
        (ThreadSafe.notifyObserversEvents Scenario.allSucceed Scenario.enabledMeanwhile
          Scenario.O (Scenario.disabled true)),
      ThreadSafe.Mutex.observable Scenario.O ∈ c.2) ∧
    (∀ c ∈ ThreadSafe.heldAtUpdates []
        (ThreadSafe.notifyObserversEvents Scenario.allSucceed Scenario.enabledMeanwhile
          Scenario.O (Scenario.disabled true)),
      ThreadSafe.Mutex.settings ∈ c.2) :=
  ⟨rfl, by decide,
    (threadSafe_updates_run_with_locks_held Scenario.allSucceed Scenario.enabledMeanwhile
      Scenario.O (Scenario.disabled true)).2.1,
    (threadSafe_updates_run_with_locks_held Scenario.allSucceed Scenario.enabledMeanwhile
      Scenario.O (Scenario.disabled true)).2.2 rfl⟩

/-! ## A failure without text after a failure with text -/

/-- The locals after a pass in which the failures that follow `e` carry no
text: `errMsg` is the text of `e`. -/
theorem lastText_of_text_then_none (calls : List Call) (pre post : List Thrown)
    (e : Thrown) (text : String)
    (hfail : failures calls = pre ++ e :: post) (hwhat : e.what = some text)
    (hpost : ∀ f ∈ post, f.what = none) : lastText calls = text := by
  have h1 : calls.filterMap (fun c => c.2.bind Thrown.what) =
      (failures calls).filterMap Thrown.what := by
    simp [failures, List.filterMap_filterMap]
  have h2 : post.filterMap Thrown.what = [] := List.filterMap_eq_nil_iff.mpr hpost
  simp [lastText, h1, hfail, List.filterMap_append, List.filterMap_cons, hwhat, h2]

/-- C22, refuted as stated.  Single-threaded configuration, updates enabled,
`A`, `B`, `C` attached to `O`; `A` fails with the text "A failed", then `B`
fails with an exception that is not a `std::exception`: the aggregated
failure has the message "could not notify one or more observers: A failed",
which carries the text of the earlier failure. -/
theorem later_unknown_failure_keeps_earlier_text :
    ∃ r, SingleThreaded.notifyObservers Scenario.aFailsThenBUnknown 3 Scenario.O
        Scenario.world = some r ∧
      failures r.calls = [.stdException "A failed", .unknown] ∧
      ∃ message, r.outcome = .threw (.Error message) ∧
        message = "could not notify one or more observers: A failed" ∧
        carriesText message "A failed" = true :=
  ⟨_, rfl, by decide, _, rfl, by decide, by decide⟩

/-- C22, amended.  Single-threaded configuration: in a dispatch pass of
`Observable::notifyObservers` where a failure `e` carries a text and every
later failure, in iteration order, carries none, the aggregated failure
carries the text of `e`: its message is "could not notify one or more
observers: " followed by that text. -/
theorem aggregated_message_is_last_text (update : Update) (fuel self : Nat) (w : World)
    (henabled : w.settings_.updatesEnabled_ = true)
    (hnodup : (w.observables self).observers_.Nodup)
    (hkeep : KeepsObservers update self)
    (hfuel : (w.observables self).observers_.length ≤ fuel) :
    ∃ r, SingleThreaded.notifyObservers update fuel self w = some r ∧
      ∀ pre e post text, failures r.calls = pre ++ e :: post → e.what = some text →
        (∀ f ∈ post, f.what = none) →
        r.outcome = .threw (.Error ("could not notify one or more observers: " ++ text)) := by
  obtain ⟨r, hr, _, hout⟩ :=
    SingleThreaded.notifyObservers_enabled_run update fuel self w henabled hnodup hkeep hfuel
  refine ⟨r, hr, fun pre e post text hfail hwhat hpost => ?_⟩
  have hemp : (failures r.calls).isEmpty = false := by
    rw [hfail]
    cases pre <;> rfl
  rw [hout, hemp, lastText_of_text_then_none r.calls pre post e text hfail hwhat hpost]
  rfl

/-- Witness of the amended C22: `A` fails with the text "A failed", then `B`
fails with an exception that is not a `std::exception`. -/
theorem aggregated_message_is_last_text_witness :
    (Scenario.world.settings_.updatesEnabled_ = true ∧
      (Scenario.world.observables Scenario.O).observers_.Nodup ∧
      KeepsObservers Scenario.aFailsThenBUnknown Scenario.O ∧
      (Scenario.world.observables Scenario.O).observers_.length ≤ 3) ∧
    ∃ r, SingleThreaded.notifyObservers Scenario.aFailsThenBUnknown 3 Scenario.O
        Scenario.world = some r ∧
      ∀ pre e post text, failures r.calls = pre ++ e :: post → e.what = some text →
        (∀ f ∈ post, f.what = none) →
        r.outcome = .threw (.Error ("could not notify one or more observers: " ++ text)) :=
  ⟨⟨rfl, by decide, Scenario.outcomes_keepsObservers _ _, by decide⟩,
    aggregated_message_is_last_text Scenario.aFailsThenBUnknown 3 Scenario.O Scenario.world
      rfl (by decide) (Scenario.outcomes_keepsObservers _ _) (by decide)⟩

/-! ## The double check of the thread-safe notification -/

/-- The loop over the copy keeps every property of the state that `update()`
keeps, also when an `update()` throws. -/
theorem ThreadSafe.dispatchCopy_keeps_always (update : Update) (P : World → Prop)
    (hP : ∀ o v, P v → P (update o v).2) (copy : List Observer) :
    ∀ (w : World) (calls : List Call), P w →
      P (ThreadSafe.dispatchCopy update copy w calls).world := by
  induction copy with
  | nil => intro w calls hw; simpa [ThreadSafe.dispatchCopy] using hw
  | cons o rest ih =>
    intro w calls hw
    by_cases ho : o = 0
    · simpa [ThreadSafe.dispatchCopy, ho] using ih w calls hw
    · cases hr : (update o w).1 with
      | none =>
        have := ih (update o w).2 (calls ++ [(o, none)]) (hP o w hw)
        simpa [ThreadSafe.dispatchCopy, ho, hr] using this
      | some e =>
        simpa [ThreadSafe.dispatchCopy, ho, hr] using hP o w hw

/-- C23. Thread-safe configuration, the unlocked read of `updatesEnabled()`
returning false.  If the re-check under the settings lock returns true, the
call is the pass over the copy of the observer set as found under the lock:
it registers nothing (the pending set is as the `update()` calls leave it)
and, when no `update()` throws, it returns after a call on every observer of
the copy.  The call goes to `registerDeferredObservers` only if the re-check
returns false and `updatesDeferred()` is true; if both are false it does
nothing. -/
theorem threadSafe_notifyObservers_double_check (update : Update) (others : World → World)
    (self : Nat) (w : World)
    (hfast : w.settings_.updatesEnabled_ = false) :
    ((others w).settings_.updatesEnabled_ = true →
      ThreadSafe.notifyObservers update others self w =
        ThreadSafe.dispatchCopy update ((others w).observables self).observers_
          (others w) [] ∧
      (KeepsPending update →
        (ThreadSafe.notifyObservers update others self w).world.settings_.deferredObservers_ =
          (others w).settings_.deferredObservers_) ∧
      ((∀ o v, (update o v).1 = none) →
        (ThreadSafe.notifyObservers update others self w).outcome = .returned ∧
        (ThreadSafe.notifyObservers update others self w).updated =
          ((others w).observables self).observers_.filter (fun o => o ≠ 0))) ∧
    ((others w).settings_.updatesEnabled_ = false →
      (others w).settings_.updatesDeferred_ = true →
      (ThreadSafe.notifyObservers update others self w).calls = [] ∧
      (ThreadSafe.notifyObservers update others self w).world =
        (others w).withSettings ((others w).settings_.registerDeferredObservers
          ((others w).observables self).observers_)) ∧
    ((others w).settings_.updatesEnabled_ = false →
      (others w).settings_.updatesDeferred_ = false →
      (ThreadSafe.notifyObservers update others self w).calls = [] ∧
      (ThreadSafe.notifyObservers update others self w).world = others w) := by
  refine ⟨fun hslow => ?_, fun hslow hdef => ?_, fun hslow hdef => ?_⟩
  · have hrun : ThreadSafe.notifyObservers update others self w =
        ThreadSafe.dispatchCopy update ((others w).observables self).observers_
          (others w) [] := by
      simp [ThreadSafe.notifyObservers, hfast, hslow]
    refine ⟨hrun, fun hkeep => ?_, fun hok => ?_⟩
    · rw [hrun]
      exact ThreadSafe.dispatchCopy_keeps_always update
        (fun v => v.settings_.deferredObservers_ = (others w).settings_.deferredObservers_)
        (fun o v hv => (hkeep o v).trans hv) _ (others w) [] rfl
    · rw [hrun]
      have h := ThreadSafe.dispatchCopy_ok update hok
        ((others w).observables self).observers_ (others w) []
      exact ⟨h.1, by simpa [Run.updated] using h.2⟩
  · simp [ThreadSafe.notifyObservers, hfast, hslow, hdef]
  · simp [ThreadSafe.notifyObservers, hfast, hslow, hdef]

/-- Witness of C23: after `disableUpdates(true)` the unlocked read returns
false; another thread then enables the updates, and the re-check returns
true. -/
theorem threadSafe_notifyObservers_double_check_witness :
    ((Scenario.disabled true).settings_.updatesEnabled_ = false ∧
      (Scenario.enabledMeanwhile (Scenario.disabled true)).settings_.updatesEnabled_ = true ∧
      KeepsPending Scenario.allSucceed ∧
      (∀ o v, (Scenario.allSucceed o v).1 = none)) ∧
    (ThreadSafe.notifyObservers Scenario.allSucceed Scenario.enabledMeanwhile Scenario.O
      (Scenario.disabled true)).world.settings_.deferredObservers_ =
        (Scenario.enabledMeanwhile (Scenario.disabled true)).settings_.deferredObservers_ ∧
    (ThreadSafe.notifyObservers Scenario.allSucceed Scenario.enabledMeanwhile Scenario.O
      (Scenario.disabled true)).outcome = .returned ∧
    (ThreadSafe.notifyObservers Scenario.allSucceed Scenario.enabledMeanwhile Scenario.O
      (Scenario.disabled true)).updated =
        ((Scenario.enabledMeanwhile (Scenario.disabled true)).observables
          Scenario.O).observers_.filter (fun o => o ≠ 0) ∧
    (ThreadSafe.notifyObservers Scenario.allSucceed Scenario.enabledMeanwhile Scenario.O
      (Scenario.disabled true)).updated = [1, 2, 3] :=
  ⟨⟨rfl, rfl, Scenario.outcomes_keepsPending _, fun _ _ => rfl⟩,
    ((threadSafe_notifyObservers_double_check Scenario.allSucceed Scenario.enabledMeanwhile
      Scenario.O (Scenario.disabled true) rfl).1 rfl).2.1 (Scenario.outcomes_keepsPending _),
    (((threadSafe_notifyObservers_double_check Scenario.allSucceed Scenario.enabledMeanwhile
      Scenario.O (Scenario.disabled true) rfl).1 rfl).2.2 (fun _ _ => rfl)).1,
    (((threadSafe_notifyObservers_double_check Scenario.allSucceed Scenario.enabledMeanwhile
      Scenario.O (Scenario.disabled true) rfl).1 rfl).2.2 (fun _ _ => rfl)).2,
    by decide⟩

/-! ## The copy constructor -/

/-- C24. Thread-safe configuration: the copy constructor leaves the new
Observable with an empty observer set whatever the state of the program, and
leaves every other Observable, the source among them, and the settings as
they were; with updates enabled, `notifyObservers` on the new Observable calls
no `update()` and returns. -/
theorem copy_constructed_observable_is_empty (update : Update) (others : World → World)
    (self source : Nat) (w : World)
    (hne : source ≠ self)
    (henabled : w.settings_.updatesEnabled_ = true) :
    ((ThreadSafe.copyConstruct self w).observables self).observers_ = [] ∧
    (ThreadSafe.copyConstruct self w).observables source = w.observables source ∧
    (ThreadSafe.copyConstruct self w).settings_ = w.settings_ ∧
    (ThreadSafe.notifyObservers update others self (ThreadSafe.copyConstruct self w)).calls =
      [] ∧
    (ThreadSafe.notifyObservers update others self (ThreadSafe.copyConstruct self w)).outcome =
      .returned := by
  have hempty : ((ThreadSafe.copyConstruct self w).observables self).observers_ = [] :=
    World.withObservers_same w self []
  have hen : (ThreadSafe.copyConstruct self w).settings_.updatesEnabled_ = true := henabled
  have hrun : ThreadSafe.notifyObservers update others self (ThreadSafe.copyConstruct self w) =
      { outcome := .returned, world := ThreadSafe.copyConstruct self w, calls := [] } := by
    simp [ThreadSafe.notifyObservers, hen, hempty, ThreadSafe.dispatchCopy]
  refine ⟨hempty, World.withObservers_other w self source [] hne, rfl, ?_, ?_⟩
  · rw [hrun]
  · rw [hrun]

/-- Witness of C24: a copy of `O`, which has `A`, `B`, `C` attached,
constructed at the address of `O2`. -/
theorem copy_constructed_observable_is_empty_witness :
    (Scenario.O ≠ Scenario.O2 ∧ Scenario.world.settings_.updatesEnabled_ = true) ∧
    (Scenario.world.observables Scenario.O).observers_ = [1, 2, 3] ∧
    ((ThreadSafe.copyConstruct Scenario.O2 Scenario.world).observables
      Scenario.O2).observers_ = [] ∧
    (ThreadSafe.copyConstruct Scenario.O2 Scenario.world).observables Scenario.O =
      Scenario.world.observables Scenario.O ∧
    (ThreadSafe.copyConstruct Scenario.O2 Scenario.world).settings_ =
      Scenario.world.settings_ ∧
    (ThreadSafe.notifyObservers Scenario.aAndBFail id Scenario.O2
      (ThreadSafe.copyConstruct Scenario.O2 Scenario.world)).calls = [] ∧
    (ThreadSafe.notifyObservers Scenario.aAndBFail id Scenario.O2
      (ThreadSafe.copyConstruct Scenario.O2 Scenario.world)).outcome = .returned :=
  ⟨⟨by decide, rfl⟩, by decide,
    copy_constructed_observable_is_empty Scenario.aAndBFail id Scenario.O2 Scenario.O
      Scenario.world (by decide) rfl⟩

/-! ## The two configurations on well-behaved observers -/

/-- The run of the single-threaded `notifyObservers` with updates enabled,
when no `update()` changes the observer set, as a pass over the set. -/
theorem SingleThreaded.notifyObservers_enabled_sweep (update : Update) (fuel self : Nat)
    (w : World)
    (henabled : w.settings_.updatesEnabled_ = true)
    (hnodup : (w.observables self).observers_.Nodup)
    (hkeep : KeepsObservers update self)
    (hfuel : (w.observables self).observers_.length ≤ fuel) :
    SingleThreaded.notifyObservers update fuel self w =
      some { outcome := QL_ENSURE
               (SingleThreaded.sweep update (w.observables self).observers_
                 ⟨true, ""⟩ w []).1.successful
               ("could not notify one or more observers: " ++
                 (SingleThreaded.sweep update (w.observables self).observers_
                   ⟨true, ""⟩ w []).1.errMsg),
             world := (SingleThreaded.sweep update (w.observables self).observers_
               ⟨true, ""⟩ w []).2.1,
             calls := (SingleThreaded.sweep update (w.observables self).observers_
               ⟨true, ""⟩ w []).2.2 } := by
  unfold SingleThreaded.notifyObservers
  simp only [henabled, Bool.not_true, Bool.false_eq_true, if_false]
  by_cases hlen : (w.observables self).observers_.length ≠ 0
  · rw [if_pos hlen]
    rw [SingleThreaded.dispatchLoop_eq_sweep update (fun x => (x.observables self).observers_)
      hkeep (w.observables self).observers_ [] fuel ⟨true, ""⟩ w [] (by simp)
      (by simpa using hnodup) hfuel]
  · rw [if_neg hlen]
    have hnil : (w.observables self).observers_ = [] := by simpa using hlen
    simp [hnil, SingleThreaded.sweep, QL_ENSURE]

/-- When no `update()` throws and no entry is null, the single-threaded pass
and the thread-safe loop over the copy make the same calls and leave the same
state, and neither records a failure. -/
theorem SingleThreaded.sweep_eq_dispatchCopy (update : Update)
    (hok : ∀ o v, (update o v).1 = none) (l : List Observer) :
    ∀ (v : SingleThreaded.Locals) (w : World) (calls : List Call), (∀ o ∈ l, o ≠ 0) →
      SingleThreaded.sweep update l v w calls =
        (v, (ThreadSafe.dispatchCopy update l w calls).world,
          (ThreadSafe.dispatchCopy update l w calls).calls) ∧
      (ThreadSafe.dispatchCopy update l w calls).outcome = .returned := by
  induction l with
  | nil => intro v w calls _; simp [SingleThreaded.sweep, ThreadSafe.dispatchCopy]
  | cons o rest ih =>
    intro v w calls hnonnull
    have ho : o ≠ 0 := hnonnull o (by simp)
    have := ih v (update o w).2 (calls ++ [(o, none)])
      (fun a ha => hnonnull a (by simp [ha]))
    simpa [SingleThreaded.sweep, ThreadSafe.dispatchCopy, ho, hok o w,
      SingleThreaded.catchUpdate] using this

/-- C25. With updates enabled, on the same state, with observers (none of
them null) whose `update()` neither throws nor changes the observer set, the
single-threaded and the thread-safe `Observable::notifyObservers` make the
same `update()` calls, one on each observer of the set, both return, and both
leave the same state: the observer set as it was, and the settings as they
were if no `update()` changes them. -/
theorem notifyObservers_configurations_agree (update : Update) (others : World → World)
    (fuel self : Nat) (w : World)
    (henabled : w.settings_.updatesEnabled_ = true)
    (hnodup : (w.observables self).observers_.Nodup)
    (hnonnull : ∀ o ∈ (w.observables self).observers_, o ≠ 0)
    (hok : ∀ o v, (update o v).1 = none)
    (hkeep : KeepsObservers update self)
    (hfuel : (w.observables self).observers_.length ≤ fuel) :
    ∃ r, SingleThreaded.notifyObservers update fuel self w = some r ∧
      r.outcome = .returned ∧
      (ThreadSafe.notifyObservers update others self w).outcome = .returned ∧
      r.calls = (ThreadSafe.notifyObservers update others self w).calls ∧
      r.world = (ThreadSafe.notifyObservers update others self w).world ∧
      r.updated = (w.observables self).observers_ ∧
      (∀ o ∈ (w.observables self).observers_, r.updated.count o = 1) ∧
      (r.world.observables self).observers_ = (w.observables self).observers_ ∧
      ((∀ o v, (update o v).2.settings_ = v.settings_) → r.world.settings_ = w.settings_) := by
  have hst := SingleThreaded.notifyObservers_enabled_sweep update fuel self w henabled hnodup
    hkeep hfuel
  obtain ⟨hsweep, hret⟩ := SingleThreaded.sweep_eq_dispatchCopy update hok
    (w.observables self).observers_ ⟨true, ""⟩ w [] hnonnull
  have hts : ThreadSafe.notifyObservers update others self w =
      ThreadSafe.dispatchCopy update (w.observables self).observers_ w [] := by
    simp [ThreadSafe.notifyObservers, henabled]
  have hupd : (ThreadSafe.dispatchCopy update (w.observables self).observers_ w []).calls.map
      Prod.fst = (w.observables self).observers_ := by
    have h := (ThreadSafe.dispatchCopy_ok update hok (w.observables self).observers_ w []).2
    have hfilter : (w.observables self).observers_.filter (fun o => o ≠ 0) =
        (w.observables self).observers_ := by
      rw [List.filter_eq_self]
      intro a ha
      simpa using hnonnull a ha
    rw [hfilter] at h
    simpa using h
  rw [hsweep] at hst
  refine ⟨_, hst, ?_, ?_, ?_, ?_, hupd, fun o ho => ?_, ?_, fun hsettings => ?_⟩
  · rfl
  · rw [hts]; exact hret
  · rw [hts]
  · rw [hts]
  · show List.count o ((ThreadSafe.dispatchCopy update (w.observables self).observers_ w
      []).calls.map Prod.fst) = 1
    rw [hupd]
    exact List.count_eq_one_of_mem hnodup ho
  · exact ThreadSafe.dispatchCopy_keeps_always update
      (fun v => (v.observables self).observers_ = (w.observables self).observers_)
      (fun o v hv => (hkeep o v).trans hv) _ w [] rfl
  · exact ThreadSafe.dispatchCopy_keeps_always update
      (fun v => v.settings_ = w.settings_)
      (fun o v hv => (hsettings o v).trans hv) _ w [] rfl

/-- Witness of C25: `A`, `B`, `C` attached to `O`, every `update()`
returning and leaving the state alone. -/
theorem notifyObservers_configurations_agree_witness :
    (Scenario.world.settings_.updatesEnabled_ = true ∧
      (Scenario.world.observables Scenario.O).observers_.Nodup ∧
      (∀ o ∈ (Scenario.world.observables Scenario.O).observers_, o ≠ 0) ∧
      (∀ o v, (Scenario.allSucceed o v).1 = none) ∧
      KeepsObservers Scenario.allSucceed Scenario.O ∧
      (Scenario.world.observables Scenario.O).observers_.length ≤ 3) ∧
    ∃ r, SingleThreaded.notifyObservers Scenario.allSucceed 3 Scenario.O Scenario.world =
        some r ∧
      r.outcome = .returned ∧
      (ThreadSafe.notifyObservers Scenario.allSucceed id Scenario.O Scenario.world).outcome =
        .returned ∧
      r.calls = (ThreadSafe.notifyObservers Scenario.allSucceed id Scenario.O
        Scenario.world).calls ∧
      r.world = (ThreadSafe.notifyObservers Scenario.allSucceed id Scenario.O
        Scenario.world).world ∧
      r.updated = (Scenario.world.observables Scenario.O).observers_ ∧
      (∀ o ∈ (Scenario.world.observables Scenario.O).observers_, r.updated.count o = 1) ∧
      (r.world.observables Scenario.O).observers_ =
        (Scenario.world.observables Scenario.O).observers_ ∧
      ((∀ o v, (Scenario.allSucceed o v).2.settings_ = v.settings_) →
        r.world.settings_ = Scenario.world.settings_) :=
  ⟨⟨rfl, by decide, by decide, fun _ _ => rfl, Scenario.outcomes_keepsObservers _ _,
      by decide⟩,
    notifyObservers_configurations_agree Scenario.allSucceed id 3 Scenario.O Scenario.world
      rfl (by decide) (by decide) (fun _ _ => rfl) (Scenario.outcomes_keepsObservers _ _)
      (by decide)⟩

/-! ## Invariants of the reachable states -/

/-- The state that a completed `enableUpdates` leaves: the one of the replay,
which has every property that holds once the flags are set and that
`update()` keeps, with the pending set emptied. -/
theorem SingleThreaded.enableUpdates_keeps (update : Update) (fuel : Nat) (w : World) (r : Run)
    (P : World → Prop) (hP : ∀ o v, P v → P (update o v).2)
    (hr : SingleThreaded.enableUpdates update fuel w = some r)
    (h0 : P (w.withSettings
      { w.settings_ with updatesEnabled_ := true, updatesDeferred_ := false })) :
    ∃ v, P v ∧ r.world.observables = v.observables ∧
      r.world.settings_.updatesEnabled_ = v.settings_.updatesEnabled_ ∧
      r.world.settings_.updatesDeferred_ = v.settings_.updatesDeferred_ ∧
      r.world.settings_.deferredObservers_ = [] := by
  unfold SingleThreaded.enableUpdates at hr
  simp only [World.withSettings] at hr h0
  by_cases hlen : w.settings_.deferredObservers_.length ≠ 0
  · rw [if_pos hlen] at hr
    split at hr
    · exact absurd hr (by simp)
    · rename_i v w2 calls hloop
      have hkept := SingleThreaded.dispatchLoop_keeps update
        (fun x => x.settings_.deferredObservers_) P hP _ _ _ _ _ _ h0 hloop
      cases hr
      exact ⟨w2, hkept, rfl, rfl, rfl, rfl⟩
  · rw [if_neg hlen] at hr
    cases hr
    exact ⟨_, h0, rfl, rfl, rfl, by simpa using hlen⟩

/-- With updates enabled, a completed single-threaded `notifyObservers`
keeps every property of the state that `update()` keeps. -/
theorem SingleThreaded.notifyObservers_keeps (update : Update) (fuel self : Nat) (w : World)
    (r : Run) (P : World → Prop) (hP : ∀ o v, P v → P (update o v).2)
    (henabled : w.settings_.updatesEnabled_ = true)
    (hr : SingleThreaded.notifyObservers update fuel self w = some r) (h0 : P w) :
    P r.world := by
  unfold SingleThreaded.notifyObservers at hr
  simp only [henabled, Bool.not_true, Bool.false_eq_true, if_false] at hr
  by_cases hlen : (w.observables self).observers_.length ≠ 0
  · rw [if_pos hlen] at hr
    split at hr
    · exact absurd hr (by simp)
    · rename_i v w2 calls hloop
      have hkept := SingleThreaded.dispatchLoop_keeps update
        (fun x => (x.observables self).observers_) P hP _ _ _ _ _ _ h0 hloop
      cases hr
      exact hkept
  · rw [if_neg hlen] at hr
    cases hr
    exact h0

/-- With updates disabled, the single-threaded `notifyObservers` returns
after `registerDeferredObservers`. -/
theorem SingleThreaded.notifyObservers_disabled_run (update : Update) (fuel self : Nat)
    (w : World) (hdisabled : w.settings_.updatesEnabled_ = false) :
    SingleThreaded.notifyObservers update fuel self w =
      some { outcome := .returned,
             world := w.withSettings
               (w.settings_.registerDeferredObservers (w.observables self).observers_),
             calls := [] } := by
  simp [SingleThreaded.notifyObservers, hdisabled]

theorem ObservableSettings.registerDeferredObservers_flags (s : ObservableSettings)
    (observers : set_type) :
    (s.registerDeferredObservers observers).updatesEnabled_ = s.updatesEnabled_ ∧
    (s.registerDeferredObservers observers).updatesDeferred_ = s.updatesDeferred_ := by
  unfold ObservableSettings.registerDeferredObservers
  split <;> exact ⟨rfl, rfl⟩

/-- A sequence of calls keeps what each call keeps. -/
theorem SingleThreaded.callAll_keeps (update : Update) (fuel : Nat) (I : World → Prop)
    (hstep : ∀ op w v, I w → SingleThreaded.call update fuel op w = some v → I v)
    (ops : List SingleThreaded.Op) :
    ∀ w v, I w → SingleThreaded.callAll update fuel ops w = some v → I v := by
  induction ops with
  | nil =>
    intro w v hw h
    simp only [SingleThreaded.callAll, Option.some.injEq] at h
    exact h ▸ hw
  | cons op ops ih =>
    intro w v hw h
    simp only [SingleThreaded.callAll] at h
    cases hc : SingleThreaded.call update fuel op w with
    | none => simp [hc] at h
    | some w1 =>
      rw [hc] at h
      exact ih w1 v (hstep op w w1 hw hc) h

/-- One call keeps "updates enabled implies nothing pending", when no
`update()` changes the settings. -/
theorem SingleThreaded.call_keeps_enabled_no_pending (update : Update) (fuel : Nat)
    (hpolicy : ∀ o v, (update o v).2.settings_ = v.settings_)
    (op : SingleThreaded.Op) (w v : World)
    (hw : w.settings_.updatesEnabled_ = true → w.settings_.deferredObservers_ = [])
    (hc : SingleThreaded.call update fuel op w = some v) :
    v.settings_.updatesEnabled_ = true → v.settings_.deferredObservers_ = [] := by
  cases op with
  | disableUpdates deferred =>
    simp only [SingleThreaded.call, Option.some.injEq] at hc
    subst hc
    intro h
    cases deferred <;> simp [ObservableSettings.disableUpdates, World.withSettings] at h
  | enableUpdates =>
    simp only [SingleThreaded.call, Option.map_eq_some'] at hc
    obtain ⟨r, hr, rfl⟩ := hc
    obtain ⟨_, _, _, _, _, hnil⟩ := SingleThreaded.enableUpdates_keeps update fuel w r
      (fun _ => True) (fun _ _ _ => trivial) hr trivial
    exact fun _ => hnil
  | notifyObservers self =>
    simp only [SingleThreaded.call, Option.map_eq_some'] at hc
    obtain ⟨r, hr, rfl⟩ := hc
    cases hen : w.settings_.updatesEnabled_ with
    | false =>
      rw [SingleThreaded.notifyObservers_disabled_run update fuel self w hen] at hr
      cases hr
      intro h
      have := (ObservableSettings.registerDeferredObservers_flags w.settings_
        (w.observables self).observers_).1
      simp only [World.withSettings] at h
      rw [this, hen] at h
      exact absurd h (by simp)
    | true =>
      have hsame := SingleThreaded.notifyObservers_keeps update fuel self w r
        (fun x => x.settings_ = w.settings_) (fun o x hx => (hpolicy o x).trans hx) hen hr rfl
      intro _
      rw [hsame]
      exact hw hen

/-- One call keeps "updates deferred implies updates disabled", when every
`update()` keeps it. -/
theorem SingleThreaded.call_keeps_deferred_disabled (update : Update) (fuel : Nat)
    (hflags : ∀ o v,
      (v.settings_.updatesDeferred_ = true → v.settings_.updatesEnabled_ = false) →
      ((update o v).2.settings_.updatesDeferred_ = true →
        (update o v).2.settings_.updatesEnabled_ = false))
    (op : SingleThreaded.Op) (w v : World)
    (hw : w.settings_.updatesDeferred_ = true → w.settings_.updatesEnabled_ = false)
    (hc : SingleThreaded.call update fuel op w = some v) :
    v.settings_.updatesDeferred_ = true → v.settings_.updatesEnabled_ = false := by
  cases op with
  | disableUpdates deferred =>
    simp only [SingleThreaded.call, Option.some.injEq] at hc
    subst hc
    intro _
    cases deferred <;> simp [ObservableSettings.disableUpdates, World.withSettings]
  | enableUpdates =>
    simp only [SingleThreaded.call, Option.map_eq_some'] at hc
    obtain ⟨r, hr, rfl⟩ := hc
    obtain ⟨x, hx, _, h1, h2, _⟩ := SingleThreaded.enableUpdates_keeps update fuel w r
      (fun x => x.settings_.updatesDeferred_ = true → x.settings_.updatesEnabled_ = false)
      hflags hr (fun h => absurd h (by simp [World.withSettings]))
    rw [h1, h2]
    exact hx
  | notifyObservers self =>
    simp only [SingleThreaded.call, Option.map_eq_some'] at hc
    obtain ⟨r, hr, rfl⟩ := hc
    cases hen : w.settings_.updatesEnabled_ with
    | false =>
      rw [SingleThreaded.notifyObservers_disabled_run update fuel self w hen] at hr
      cases hr
      intro _
      have := (ObservableSettings.registerDeferredObservers_flags w.settings_
        (w.observables self).observers_).1
      simp only [World.withSettings]
      rw [this, hen]
    | true =>
      exact SingleThreaded.notifyObservers_keeps update fuel self w r
        (fun x => x.settings_.updatesDeferred_ = true → x.settings_.updatesEnabled_ = false)
        hflags hen hr hw

theorem set_type.insert_length_le (s : set_type) (x : Observer) :
    (set_type.insert s x).length ≤ s.length + 1 := by
  unfold set_type.insert
  split <;> simp

theorem set_type.insertRange_length_le (range : List Observer) :
    ∀ s : set_type, (set_type.insertRange s range).length ≤ s.length + range.length := by
  induction range with
  | nil => intro s; simp [set_type.insertRange]
  | cons x xs ih =>
    intro s
    have h1 := ih (set_type.insert s x)
    have h2 := set_type.insert_length_le s x
    simp only [set_type.insertRange, List.foldl_cons, List.length_cons] at h1 ⊢
    omega

theorem SingleThreaded.attachedTo_congr (w v : World) (h : v.observables = w.observables)
    (ops : List SingleThreaded.Op) :
    SingleThreaded.attachedTo v ops = SingleThreaded.attachedTo w ops := by
  induction ops with
  | nil => rfl
  | cons op ops ih => cases op <;> simp [SingleThreaded.attachedTo, ih, h]

/-- One call completes when `update()` leaves the state alone and `fuel`
covers the pending set and the observers of the notified Observable; it
leaves the observer sets as they were and the pending set without
duplicates, grown by at most the observers of the notified Observable. -/
theorem SingleThreaded.call_completes (update : Update) (fuel : Nat)
    (hstill : ∀ o v, (update o v).2 = v) (op : SingleThreaded.Op) (w : World)
    (hsets : ∀ self, (w.observables self).observers_.Nodup)
    (hpending : w.settings_.deferredObservers_.Nodup)
    (hfuel : w.settings_.deferredObservers_.length + SingleThreaded.attachedTo w [op] ≤ fuel) :
    ∃ v, SingleThreaded.call update fuel op w = some v ∧
      v.observables = w.observables ∧
      v.settings_.deferredObservers_.Nodup ∧
      v.settings_.deferredObservers_.length ≤
        w.settings_.deferredObservers_.length + SingleThreaded.attachedTo w [op] := by
  have hkeepP : KeepsPending update := fun o v => by rw [hstill]
  cases op with
  | disableUpdates deferred =>
    refine ⟨_, rfl, rfl, ?_, ?_⟩
    · cases deferred <;> exact hpending
    · cases deferred <;> simp [ObservableSettings.disableUpdates, World.withSettings]
  | enableUpdates =>
    obtain ⟨r, hr, _, _⟩ := SingleThreaded.enableUpdates_run update fuel w hpending hkeepP
      (by omega)
    obtain ⟨x, hx, hobs, _, _, hnil⟩ := SingleThreaded.enableUpdates_keeps update fuel w r
      (fun x => x.observables = w.observables) (fun o x hx => by rw [hstill]; exact hx) hr rfl
    refine ⟨r.world, by simp [SingleThreaded.call, hr], hobs.trans hx, ?_, ?_⟩
    · rw [hnil]; exact List.nodup_nil
    · rw [hnil]; simp
  | notifyObservers self =>
    cases hen : w.settings_.updatesEnabled_ with
    | false =>
      refine ⟨w.withSettings
        (w.settings_.registerDeferredObservers (w.observables self).observers_),
        by simp [SingleThreaded.call,
          SingleThreaded.notifyObservers_disabled_run update fuel self w hen], rfl, ?_, ?_⟩
      · simp only [World.withSettings, ObservableSettings.registerDeferredObservers]
        split
        · exact set_type.insertRange_nodup _ _ hpending
        · exact hpending
      · simp only [World.withSettings, ObservableSettings.registerDeferredObservers,
          SingleThreaded.attachedTo]
        split
        · have := set_type.insertRange_length_le (w.observables self).observers_
            w.settings_.deferredObservers_
          simpa using this
        · omega
    | true =>
      have hlen : (w.observables self).observers_.length ≤ fuel := by
        simp only [SingleThreaded.attachedTo] at hfuel
        omega
      obtain ⟨r, hr, _, _⟩ := SingleThreaded.notifyObservers_enabled_run update fuel self w hen
        (hsets self) (fun o v => by rw [hstill]) hlen
      have hsame := SingleThreaded.notifyObservers_keeps update fuel self w r
        (fun x => x = w) (fun o x hx => by rw [hstill]; exact hx) hen hr rfl
      refine ⟨r.world, by simp [SingleThreaded.call, hr], by rw [hsame], ?_, ?_⟩
      · rw [hsame]; exact hpending
      · rw [hsame]; omega

/-- A sequence of calls completes when `update()` leaves the state alone and
`fuel` covers the pending set and the observers of the Observables that the
calls notify. -/
theorem SingleThreaded.callAll_completes (update : Update) (fuel : Nat)
    (hstill : ∀ o v, (update o v).2 = v) (ops : List SingleThreaded.Op) :
    ∀ w : World, (∀ self, (w.observables self).observers_.Nodup) →
      w.settings_.deferredObservers_.Nodup →
      w.settings_.deferredObservers_.length + SingleThreaded.attachedTo w ops ≤ fuel →
      ∃ v, SingleThreaded.callAll update fuel ops w = some v := by
  induction ops with
  | nil => exact fun w _ _ _ => ⟨w, rfl⟩
  | cons op ops ih =>
    intro w hsets hpending hfuel
    have hsplit : SingleThreaded.attachedTo w (op :: ops) =
        SingleThreaded.attachedTo w [op] + SingleThreaded.attachedTo w ops := by
      cases op <;> simp [SingleThreaded.attachedTo]
    obtain ⟨w1, hc, hobs, hnd, hlen⟩ := SingleThreaded.call_completes update fuel hstill op w
      hsets hpending (by omega)
    have hcongr := SingleThreaded.attachedTo_congr w w1 hobs ops
    obtain ⟨v, hv⟩ := ih w1 (fun self => by rw [hobs]; exact hsets self) hnd (by omega)
    exact ⟨v, by simp [SingleThreaded.callAll, hc, hv]⟩

/-- C26. Single-threaded configuration, observers whose `update()` does not
change the settings: from the default state of the policy, after any sequence
of `disableUpdates`, `enableUpdates` and `notifyObservers` calls, returning or
raising, if updates are enabled then the pending set is empty.  The sequence
completes when `update()` leaves the state alone and the observer sets have no
duplicates, with `fuel` of the number of observers notified. -/
theorem enabled_implies_nothing_pending (update : Update) (fuel : Nat)
    (ops : List SingleThreaded.Op) (w : World)
    (hinit : w.settings_ = ObservableSettings.initial)
    (hpolicy : ∀ o v, (update o v).2.settings_ = v.settings_) :
    (∀ v, SingleThreaded.callAll update fuel ops w = some v →
      v.settings_.updatesEnabled_ = true → v.settings_.deferredObservers_ = []) ∧
    ((∀ o v, (update o v).2 = v) → (∀ self, (w.observables self).observers_.Nodup) →
      SingleThreaded.attachedTo w ops ≤ fuel →
      ∃ v, SingleThreaded.callAll update fuel ops w = some v ∧
        (v.settings_.updatesEnabled_ = true → v.settings_.deferredObservers_ = [])) := by
  have hall : ∀ v, SingleThreaded.callAll update fuel ops w = some v →
      v.settings_.updatesEnabled_ = true → v.settings_.deferredObservers_ = [] := by
    intro v hv
    exact SingleThreaded.callAll_keeps update fuel
      (fun x => x.settings_.updatesEnabled_ = true → x.settings_.deferredObservers_ = [])
      (fun op x y hx hc =>
        SingleThreaded.call_keeps_enabled_no_pending update fuel hpolicy op x y hx hc)
      ops w v (fun _ => by rw [hinit]; rfl) hv
  refine ⟨hall, fun hstill hsets hfuel => ?_⟩
  obtain ⟨v, hv⟩ := SingleThreaded.callAll_completes update fuel hstill ops w hsets
    (by rw [hinit]; exact List.nodup_nil)
    (by rw [hinit]; simpa [ObservableSettings.initial] using hfuel)
  exact ⟨v, hv, hall v hv⟩

/-- Witness of C26: deferral, three notifications of `O`, a replay that
raises, a plain disabling, a notification, a second `enableUpdates` and a
notification that raises. -/
theorem enabled_implies_nothing_pending_witness :
    (SingleThreaded.callAll Scenario.aAndBFail 15 Scenario.calls Scenario.world).map
        (fun v => v.settings_) = some ObservableSettings.initial ∧
    (Scenario.world.settings_ = ObservableSettings.initial ∧
      (∀ o v, (Scenario.aAndBFail o v).2.settings_ = v.settings_) ∧
      (∀ o v, (Scenario.aAndBFail o v).2 = v) ∧
      (∀ self, (Scenario.world.observables self).observers_.Nodup) ∧
      SingleThreaded.attachedTo Scenario.world Scenario.calls ≤ 15) ∧
    (∀ v, SingleThreaded.callAll Scenario.aAndBFail 15 Scenario.calls Scenario.world = some v →
      v.settings_.updatesEnabled_ = true → v.settings_.deferredObservers_ = []) ∧
    ∃ v, SingleThreaded.callAll Scenario.aAndBFail 15 Scenario.calls Scenario.world = some v ∧
      (v.settings_.updatesEnabled_ = true → v.settings_.deferredObservers_ = []) :=
  have hsets : ∀ self, (Scenario.world.observables self).observers_.Nodup := fun self => by
    show (if self = Scenario.O then ({ observers_ := [1, 2, 3] } : Observable)
      else { observers_ := [] }).observers_.Nodup
    split <;> decide
  ⟨by decide, ⟨rfl, fun _ _ => rfl, fun _ _ => rfl, hsets, by decide⟩,
    (enabled_implies_nothing_pending Scenario.aAndBFail 15 Scenario.calls Scenario.world rfl
      (fun _ _ => rfl)).1,
    (enabled_implies_nothing_pending Scenario.aAndBFail 15 Scenario.calls Scenario.world rfl
      (fun _ _ => rfl)).2 (fun _ _ => rfl) hsets (by decide)⟩

/-- C27. From the default state of the flags (enabled, not deferred), after
any sequence of `disableUpdates(d)` and `enableUpdates` calls (and of
`notifyObservers` calls), returning or raising, if updates are deferred then
they are disabled, provided every `update()` keeps this property of the
flags.  The sequence completes as in C26. -/
theorem deferred_implies_disabled (update : Update) (fuel : Nat)
    (ops : List SingleThreaded.Op) (w : World)
    (hinit : w.settings_.updatesEnabled_ = true ∧ w.settings_.updatesDeferred_ = false)
    (hflags : ∀ o v,
      (v.settings_.updatesDeferred_ = true → v.settings_.updatesEnabled_ = false) →
      ((update o v).2.settings_.updatesDeferred_ = true →
        (update o v).2.settings_.updatesEnabled_ = false)) :
    (∀ v, SingleThreaded.callAll update fuel ops w = some v →
      v.settings_.updatesDeferred_ = true → v.settings_.updatesEnabled_ = false) ∧
    ((∀ o v, (update o v).2 = v) → (∀ self, (w.observables self).observers_.Nodup) →
      w.settings_.deferredObservers_.Nodup →
      w.settings_.deferredObservers_.length + SingleThreaded.attachedTo w ops ≤ fuel →
      ∃ v, SingleThreaded.callAll update fuel ops w = some v ∧
        (v.settings_.updatesDeferred_ = true → v.settings_.updatesEnabled_ = false)) := by
  have hall : ∀ v, SingleThreaded.callAll update fuel ops w = some v →
      v.settings_.updatesDeferred_ = true → v.settings_.updatesEnabled_ = false := by
    intro v hv
    exact SingleThreaded.callAll_keeps update fuel
      (fun x => x.settings_.updatesDeferred_ = true → x.settings_.updatesEnabled_ = false)
      (fun op x y hx hc =>
        SingleThreaded.call_keeps_deferred_disabled update fuel hflags op x y hx hc)
      ops w v (fun h => by rw [hinit.2] at h; exact absurd h (by simp)) hv
  refine ⟨hall, fun hstill hsets hpending hfuel => ?_⟩
  obtain ⟨v, hv⟩ := SingleThreaded.callAll_completes update fuel hstill ops w hsets hpending
    hfuel
  exact ⟨v, hv, hall v hv⟩

/-- Witness of C27: `disableUpdates(true)`, `disableUpdates(false)`,
`enableUpdates()`, `disableUpdates(true)` from the default state. -/
theorem deferred_implies_disabled_witness :
    (SingleThreaded.callAll Scenario.allSucceed 0
        [.disableUpdates true, .disableUpdates false, .enableUpdates, .disableUpdates true]
        Scenario.world).map (fun v => (v.settings_.updatesEnabled_, v.settings_.updatesDeferred_)) =
      some (false, true) ∧
    ((Scenario.world.settings_.updatesEnabled_ = true ∧
        Scenario.world.settings_.updatesDeferred_ = false) ∧
      (∀ o v, (v.settings_.updatesDeferred_ = true → v.settings_.updatesEnabled_ = false) →
        ((Scenario.allSucceed o v).2.settings_.updatesDeferred_ = true →
          (Scenario.allSucceed o v).2.settings_.updatesEnabled_ = false))) ∧
    ∀ v, SingleThreaded.callAll Scenario.allSucceed 0
        [.disableUpdates true, .disableUpdates false, .enableUpdates, .disableUpdates true]
        Scenario.world = some v →
      v.settings_.updatesDeferred_ = true → v.settings_.updatesEnabled_ = false :=
  ⟨by decide, ⟨⟨rfl, rfl⟩, fun _ _ h => h⟩,
    (deferred_implies_disabled Scenario.allSucceed 0
      [.disableUpdates true, .disableUpdates false, .enableUpdates, .disableUpdates true]
      Scenario.world ⟨rfl, rfl⟩ (fun _ _ h => h)).1⟩

end QuantLib
